import Mathlib

/-!
# Verification of the air-helper request/link orchestration engine

Shallow embedding, in Lean 4, of the orchestration core of the `bnb-fetcher`
repository: the price-range URL sharder (`pricerange` package), the enrichment
worker pool, the link processor, the retry queue with its circuit breaker, the
request orchestrator (`scheduler` package, `processNextRequest`), and the
durable store's schema constraints (`db` package).

Modelling conventions:
* Go statuses are kept as `String`s, as in the source.
* External collaborators (page fetcher, HTML parser, detail fetcher/parser,
  filter configuration) are oracles supplied through an `Env` record, exactly
  mirroring how the Go code receives them as injected instances.
* Side effects (DB updates, notifications, sheet writes, back-off sleeps) are
  recorded as an explicit event trace, in program order.
* The durable store is a state record whose update functions enforce the SQL
  `CHECK` constraints declared by `initSchema` (`db/db.go`); an update with a
  status outside the constraint returns an error, which callers handle the way
  the Go call sites do (log and continue, or abort).
* Go `map` iteration never affects observable results in the embedded paths;
  maps are embedded as association lists keyed by unique keys.
* float64-valued listing fields (price, stars, room counts) are only carried,
  never computed with, on the embedded paths; the filter predicate that reads
  them is an oracle parameter, as `filterInstance` is in Go.
-/

-- Equality of `Except` results is decidable componentwise (used to evaluate
-- sharder outcomes on concrete URLs).
deriving instance DecidableEq for Except

namespace AirHelper

/-! ## Query values (model of Go `net/url` `url.Values`)

`url.Values` is a `map[string][]string`; keys are unique. We embed it as an
association list with unique keys.  `Get` returns the first value of a key or
the empty string; `Set` replaces the whole value list of a key by a singleton.
-/

/-- Model of Go `url.Values`: a map from query key to its list of values. -/
abbrev Values := List (String × List String)

/-- `url.Values.Get`: first value of the key, or `""` when absent/empty. -/
def getQ (q : Values) (k : String) : String :=
  match q.find? (fun p => p.1 == k) with
  | some (_, v :: _) => v
  | _ => ""

/-- `url.Values.Set`: replace the key's values by a singleton (append the key
when absent). -/
def setQ (q : Values) (k v : String) : Values :=
  if q.any (fun p => p.1 == k) then
    q.map (fun p => if p.1 == k then (k, [v]) else p)
  else q ++ [(k, [v])]

/-- A parsed URL: everything before the query string, plus the parsed query.
Go's `url.Parse`/`Encode` round-trip is abstracted away; the degenerate cases
of the sharder return the input value unchanged, as the Go code returns the
original URL string unchanged. -/
structure URLQ where
  base : String
  query : Values
  deriving DecidableEq, Repr

/-- Decimal value of a digit string (helper for `atoi`). -/
def digitsToNat (ds : List Char) : Nat :=
  ds.foldl (fun n c => n * 10 + (c.toNat - 48)) 0

/-- Model of Go `strconv.Atoi` restricted to the inputs the sharder meets:
decimal integers with an optional leading minus sign; `none` on anything
else (Go returns an error then).  Written over the character list so the
kernel can evaluate it. -/
def atoi (s : String) : Option Int :=
  match s.data with
  | [] => none
  | '-' :: ds =>
    if ds.isEmpty || !(ds.all Char.isDigit) then none
    else some (-(digitsToNat ds : Int))
  | ds => if ds.all Char.isDigit then some (digitsToNat ds) else none

/-! ## Price-Range Sharder (`pricerange` package, `src/unnamed/part_000`) -/

/-- `pricerange.DefaultStep`: default price range step size in dollars. -/
def DefaultStep : Int := 50

/-- `pricerange.PriceRangeURL`: a URL with price range parameters. -/
structure PriceRangeURL where
  url : URLQ
  label : String
  min : Int
  max : Int
  deriving DecidableEq, Repr

/-- Label of the form `"$<min>-$<max>"` built by `fmt.Sprintf("$%d-$%d", ...)`. -/
def priceLabel (pmin pmax : Int) : String :=
  "$" ++ toString pmin ++ "-$" ++ toString pmax

/-- The ordered "selected filter" list key, in both spellings the Go code
checks (`selected_filter_order[]`, percent-encoded variant). -/
def isSelectedFilterOrderKey (k : String) : Bool :=
  k == "selected_filter_order[]" || k == "selected_filter_order%5B%5D"

/-- Is a selected-filter entry a price entry (`price_min:`/`price_max:`)?
(`strings.HasPrefix`, written over character lists for kernel evaluation.) -/
def isPriceFilterEntry (s : String) : Bool :=
  "price_min:".data.isPrefixOf s.data || "price_max:".data.isPrefixOf s.data

/-- One iteration's query rewrite in `GeneratePriceRangeURLs`: clone the query,
rewriting the selected-filter list (drop price entries, append the window's
`price_min:`/`price_max:` entries, preserving all non-price entries and their
order), then `Set` `price_min`/`price_max` to the window bounds. -/
def updateQueryForRange (q : Values) (rangeMin rangeMax : Int) : Values :=
  let cloned := q.map (fun p =>
    if isSelectedFilterOrderKey p.1 then
      (p.1, (p.2.filter (fun s => !(isPriceFilterEntry s)))
            ++ ["price_min:" ++ toString rangeMin, "price_max:" ++ toString rangeMax])
    else p)
  setQ (setQ cloned "price_min" (toString rangeMin)) "price_max" (toString rangeMax)

/-- The `for rangeMin := priceMin; rangeMin < priceMax; rangeMin += step` loop
of `GeneratePriceRangeURLs`.  The `fuel` argument is a model artifact making
the recursion structural; the caller passes `(priceMax - rangeMin).toNat + 1`,
which bounds the iteration count because each iteration advances `rangeMin`
by `step ≥ 1` (the Go loop terminates for the same reason). -/
def genRangeLoop (base : String) (q : Values) (priceMax step : Int) :
    Nat → Int → List PriceRangeURL
  | 0, _ => []
  | fuel + 1, rangeMin =>
    if rangeMin < priceMax then
      let rangeMax := if rangeMin + step > priceMax then priceMax else rangeMin + step
      let rest := genRangeLoop base q priceMax step fuel (rangeMin + step)
      -- "Skip ranges that are too narrow (less than 1)"
      if rangeMax ≤ rangeMin then rest
      else
        { url := ⟨base, updateQueryForRange q rangeMin rangeMax⟩,
          label := priceLabel rangeMin rangeMax,
          min := rangeMin, max := rangeMax } :: rest
    else []

/-- `pricerange.GeneratePriceRangeURLs`: split a URL with a price ceiling into
consecutive `[min, min+step)` windows, the last clamped to the ceiling.
No `price_max` parameter: the original URL, labeled `"all prices"`.
`price_max ≤ price_min`: the original URL unmodified (degenerate case). -/
def GeneratePriceRangeURLs (u : URLQ) (step0 : Int) : Except String (List PriceRangeURL) :=
  let step := if step0 ≤ 0 then DefaultStep else step0
  let priceMaxStr := getQ u.query "price_max"
  if priceMaxStr == "" then
    .ok [{ url := u, label := "all prices", min := 0, max := 0 }]
  else
    match atoi priceMaxStr with
    | none => .error ("invalid price_max value: " ++ priceMaxStr)
    | some priceMax =>
      let priceMinStr := getQ u.query "price_min"
      let priceMin := if priceMinStr == "" then 0 else (atoi priceMinStr).getD 0
      if priceMax ≤ priceMin then
        .ok [{ url := u, label := priceLabel priceMin priceMax,
               min := priceMin, max := priceMax }]
      else
        let ranges := genRangeLoop u.base u.query priceMax step
          ((priceMax - priceMin).toNat + 1) priceMin
        if ranges = [] then
          .ok [{ url := u, label := priceLabel priceMin priceMax,
                 min := priceMin, max := priceMax }]
        else .ok ranges

/-- `pricerange.ExtractPriceRangeLabel`: derive a `"$min-$max"` label from a
URL's `price_min`/`price_max`; `"all prices"` when neither is present. -/
def ExtractPriceRangeLabel (u : URLQ) : String :=
  let priceMinStr := getQ u.query "price_min"
  let priceMaxStr := getQ u.query "price_max"
  if priceMinStr == "" && priceMaxStr == "" then "all prices"
  else
    priceLabel
      (if priceMinStr == "" then 0 else (atoi priceMinStr).getD 0)
      (if priceMaxStr == "" then 0 else (atoi priceMaxStr).getD 0)

/-! ## Listings and the enrichment worker pool (`enrichListings`,
`src/unnamed/part_009` lines 654-848)

`models.Listing` carries the fields the embedded paths read or write.  The
float64-valued fields (price, stars, room counts) are carried opaquely by the
filter oracle and are not needed by any embedded computation, so they are
omitted from the record; `url` is the identity key. -/

/-- A crawled listing (embedded fields of `models.Listing`).  The zero value
(the Go zero struct) has every string empty; `enrichListings` recognises a
never-written slot by `url = ""`. -/
structure Listing where
  title : String := ""
  url : String := ""
  pageNumber : Nat := 0
  linkNumber : Nat := 0
  isSuperhost : Bool := false
  isGuestFavorite : Bool := false
  description : String := ""
  houseRules : String := ""
  deriving DecidableEq, Repr

instance : Inhabited Listing := ⟨{}⟩

/-- Detail-page data merged into a listing by a worker (the fields of
`parser.DetailData` the merge writes). -/
structure DetailData where
  isSuperhost : Bool := false
  isGuestFavorite : Bool := false
  description : String := ""
  houseRules : String := ""
  deriving DecidableEq, Repr

/-- The worker's merge step: copy the detail fields onto the listing. -/
def mergeDetail (l : Listing) (d : DetailData) : Listing :=
  { l with isSuperhost := d.isSuperhost, isGuestFavorite := d.isGuestFavorite,
           description := d.description, houseRules := d.houseRules }

/-- The tagged result a worker sends on the `results` channel:
`{index, listing, success, err}`. -/
structure EnrichResult where
  index : Nat
  listing : Listing
  success : Bool
  deriving DecidableEq, Repr

/-- The deterministic outcome for job `i`: no persisted listing ID means an
immediate failure result (sent by the job feeder); otherwise the detail
fetch+parse oracle either fails (failure result, basic listing carried) or
yields detail data merged onto the listing (success result). -/
def enrichJobResult (urlToID : String → Option Nat)
    (detailOracle : Nat → Listing → Option DetailData)
    (i : Nat) (l : Listing) : EnrichResult :=
  match urlToID l.url with
  | none => { index := i, listing := l, success := false }
  | some _ =>
    match detailOracle i l with
    | none => { index := i, listing := l, success := false }
    | some d => { index := i, listing := mergeDetail l d, success := true }

/-- Receiving one result: successful results are written into the
index-addressed slot of the preallocated result slice; failed results are
dropped (the slot keeps the zero listing). -/
def collectResult (acc : List Listing) (r : EnrichResult) : List Listing :=
  if r.success then acc.set r.index r.listing else acc

/-- `scheduler.enrichListings`: fan the listings out to the worker pool and
collect the results.  `arrival` is the order in which results come back on the
channel — any permutation of the job indices, depending on worker scheduling.
The collected array is index-addressed; afterwards the never-written (failed)
slots, recognisable by their empty URL, are filtered out. -/
def enrichListings (listings : List Listing) (urlToID : String → Option Nat)
    (detailOracle : Nat → Listing → Option DetailData)
    (arrival : List Nat) : List Listing :=
  let filteredCount := listings.length
  if filteredCount = 0 then []
  else
    let results := arrival.map
      (fun i => enrichJobResult urlToID detailOracle i (listings.getD i default))
    let collected := results.foldl collectResult (List.replicate filteredCount default)
    -- "Filter out empty (failed) listings"
    collected.filter (fun l => l.url ≠ "")

/-! ## Durable store (`db` package)

The rows and update operations the orchestrator uses, with the `CHECK`
constraints of `initSchema` (`db/db.go` lines 100-181) enforced: an `UPDATE`
whose new status is outside the constraint list returns an error, as Postgres
rejects the row.  Connection-level failures are out of scope; the only error
source modelled is the constraint. -/

/-- A `search_links` row. -/
structure SearchLink where
  id : Nat
  requestId : Nat
  linkNumber : Nat
  url : String
  status : String
  retryCount : Nat
  listingsCount : Nat
  lastError : Option String
  deriving DecidableEq, Repr

/-- A `requests` row as the orchestrator reads it (`sheetName` mirrors the
`sql.NullString`: `none` is SQL NULL). -/
structure Request where
  id : Nat
  userId : Nat
  url : String
  status : String
  sheetName : Option String
  deriving DecidableEq, Repr

/-- The durable store restricted to one request: its row, its `search_links`
rows (in `link_number` order, as `GetSearchLinksByRequestID` returns them),
and the `(url, link_number)` projection of its `listings` rows that
`GetListingURLsAndLinkNumbers` reads back. -/
structure DBState where
  reqStatus : String
  sheetName : Option String
  links : List SearchLink
  listingRows : List (String × Nat)
  listingsCount : Nat
  pagesCount : Nat
  deriving DecidableEq, Repr

/-- The `requests` table's `CHECK (status IN (...))` constraint `valid_status`
from `initSchema`: note `'paused'` is not in the list. -/
def requestStatusAllowed (s : String) : Bool :=
  ["created", "in_progress", "done", "failed"].contains s

/-- The `search_links` table's `CHECK (status IN (...))` constraint
`valid_search_link_status` from `initSchema`. -/
def searchLinkStatusAllowed (s : String) : Bool :=
  ["pending", "in_progress", "done", "failed"].contains s

/-- `db.UpdateRequestStatus` against the `requests` table created by
`initSchema`: rejected when the new status violates `valid_status`. -/
def updateRequestStatus (db : DBState) (s : String) : Except String DBState :=
  if requestStatusAllowed s then .ok { db with reqStatus := s }
  else .error "violates check constraint valid_status"

/-- A call site that only logs an `UpdateRequestStatus` error and continues
(the pause path, `part_009` lines 358-360). -/
def tryUpdateRequestStatus (db : DBState) (s : String) : DBState :=
  match updateRequestStatus db s with
  | .ok db' => db'
  | .error _ => db

/-- Rewrite the row of one link in place (SQL `UPDATE ... WHERE id = $n`). -/
def updateLinkRow (db : DBState) (linkId : Nat) (f : SearchLink → SearchLink) : DBState :=
  { db with links := db.links.map (fun l => if l.id = linkId then f l else l) }

/-- `db.UpdateSearchLinkStatus`: set status and (always) last_error.  All
statuses the orchestrator writes satisfy `valid_search_link_status`; call
sites log-and-continue on error, so the guarded update collapses to the plain
row rewrite for them. -/
def updateSearchLinkStatus (db : DBState) (linkId : Nat) (status : String)
    (lastError : Option String) : Except String DBState :=
  if searchLinkStatusAllowed status then
    .ok (updateLinkRow db linkId (fun l => { l with status := status, lastError := lastError }))
  else .error "violates check constraint valid_search_link_status"

/-- A call site that only logs an `UpdateSearchLinkStatus` error. -/
def tryUpdateSearchLinkStatus (db : DBState) (linkId : Nat) (status : String)
    (lastError : Option String) : DBState :=
  match updateSearchLinkStatus db linkId status lastError with
  | .ok db' => db'
  | .error _ => db

/-- `db.IncrementSearchLinkRetry`: `retry_count = retry_count + 1`,
`status = 'pending'`. -/
def incrementSearchLinkRetry (db : DBState) (linkId : Nat) : DBState :=
  updateLinkRow db linkId (fun l => { l with retryCount := l.retryCount + 1, status := "pending" })

/-- `db.UpdateSearchLinkListingsCount`. -/
def updateSearchLinkListingsCount (db : DBState) (linkId : Nat) (count : Nat) : DBState :=
  updateLinkRow db linkId (fun l => { l with listingsCount := count })

/-- `db.GetSearchLinkByID`. -/
def getSearchLinkByID (db : DBState) (linkId : Nat) : Option SearchLink :=
  db.links.find? (fun l => l.id = linkId)

/-- `db.UpdateRequestCounts`. -/
def updateRequestCounts (db : DBState) (listings pages : Nat) : DBState :=
  { db with listingsCount := listings, pagesCount := pages }

/-- `db.UpdateRequestSheetName` (its error is only logged by the caller). -/
def updateRequestSheetName (db : DBState) (name : String) : DBState :=
  { db with sheetName := some name }

/-! ## Link Processor (`processSearchLink`, `src/unnamed/part_009` lines 502-652)

The page fetcher and per-page parser are oracles: one link attempt is handed
`Except String (List (Except String (List Listing)))` — either a fetch error,
or the fetched pages, each carrying its own parse outcome (a parse error makes
the page contribute nothing, with a logged warning).  Listing persistence
(`SaveListingWithLinkNumber` / `GetListingIDByURL`) succeeds in the model: the
Go code only logs persistence failures and skips the affected listing. -/

/-- Lookup in the in-memory `seenListingURLs` map (URL → first link number). -/
def seenLookup (seen : List (String × Nat)) (url : String) : Option Nat :=
  (seen.find? (fun p => p.1 == url)).map (fun p => p.2)

/-- First dedup pass of `processSearchLink` (lines 567-578): walk the filtered
listings; a URL not yet in the dedup map is claimed for this link and kept,
a URL already present is dropped. Returns the updated map and the kept list. -/
def dedupFiltered (linkNumber : Nat) :
    List Listing → List (String × Nat) → List (String × Nat) × List Listing
  | [], seen => (seen, [])
  | l :: rest, seen =>
    if seenLookup seen l.url = none then
      let out := dedupFiltered linkNumber rest (seen ++ [(l.url, linkNumber)])
      (out.1, l :: out.2)
    else dedupFiltered linkNumber rest seen

/-- Second dedup pass (lines 589-598): walk all parsed listings; those whose
URL is not among the kept URLs and not yet in the dedup map become the link's
unfiltered set (stamped with the link number), claiming their URL. -/
def dedupUnfiltered (linkNumber : Nat) (filteredURLs : List String) :
    List Listing → List (String × Nat) → List (String × Nat) × List Listing
  | [], seen => (seen, [])
  | l :: rest, seen =>
    if filteredURLs.contains l.url then dedupUnfiltered linkNumber filteredURLs rest seen
    else if seenLookup seen l.url = none then
      let out := dedupUnfiltered linkNumber filteredURLs rest (seen ++ [(l.url, linkNumber)])
      (out.1, { l with linkNumber := linkNumber } :: out.2)
    else dedupUnfiltered linkNumber filteredURLs rest seen

/-- What one run of `processSearchLink` returns and changes: the enriched kept
listings, the unfiltered listings, page/parse counts, the updated dedup map,
the `(url, link_number)` rows it persisted, and the error (if any).  On an
error the other components are empty/unchanged, as in Go. -/
structure LinkProcOutput where
  enriched : List Listing
  unfiltered : List Listing
  pagesFetched : Nat
  totalListings : Nat
  seen : List (String × Nat)
  savedRows : List (String × Nat)
  err : Option String
  deriving Repr

/-- `scheduler.processSearchLink`: fetch pages, parse, filter, dedup, persist
the kept listings, enrich them.  Zero fetched pages is an error; zero parsed
listings from ≥ 1 page is a success with empty results (lines 556-562). -/
def processSearchLink (keep : Listing → Bool)
    (fetchParse : Except String (List (Except String (List Listing))))
    (detailOracle : Nat → Listing → Option DetailData) (arrival : List Nat)
    (linkNumber : Nat) (seen0 : List (String × Nat)) : LinkProcOutput :=
  match fetchParse with
  | .error e =>
    { enriched := [], unfiltered := [], pagesFetched := 0, totalListings := 0,
      seen := seen0, savedRows := [], err := some ("fetch failed: " ++ e) }
  | .ok pages =>
    let pagesFetched := pages.length
    if pages.isEmpty then
      { enriched := [], unfiltered := [], pagesFetched := 0, totalListings := 0,
        seen := seen0, savedRows := [], err := some "no HTML pages collected" }
    else
      -- parse each page; a failed parse is skipped; tag page and link numbers
      let allListings := pages.enum.flatMap (fun p =>
        match p.2 with
        | .error _ => []
        | .ok ls => ls.map (fun l => { l with pageNumber := p.1 + 1, linkNumber := linkNumber }))
      let totalListings := allListings.length
      if allListings.isEmpty then
        -- 0 listings is valid (e.g. empty price range) — success, not an error
        { enriched := [], unfiltered := [], pagesFetched := pagesFetched, totalListings := 0,
          seen := seen0, savedRows := [], err := none }
      else
        let filteredListings := allListings.filter keep
        let pass1 := dedupFiltered linkNumber filteredListings seen0
        let kept := pass1.2
        let filteredURLs := kept.map (fun l => l.url)
        let pass2 := dedupUnfiltered linkNumber filteredURLs allListings pass1.1
        let unfiltered := pass2.2
        if kept.length = 0 then
          -- no filtered listings; not an error, nothing persisted or enriched
          { enriched := [], unfiltered := unfiltered, pagesFetched := pagesFetched,
            totalListings := totalListings, seen := pass2.1, savedRows := [], err := none }
        else
          let savedRows := kept.map (fun l => (l.url, linkNumber))
          let urlToID : String → Option Nat :=
            fun u => if savedRows.any (fun r => r.1 == u) then some 1 else none
          let enriched := enrichListings kept urlToID detailOracle arrival
          { enriched := enriched, unfiltered := unfiltered, pagesFetched := pagesFetched,
            totalListings := totalListings, seen := pass2.1, savedRows := savedRows, err := none }

/-! ## Retry Queue and Request Orchestrator
(`processNextRequest`, `src/unnamed/part_009` lines 139-500)

Side effects are recorded as an event trace in program order.  Purely textual
notifications are `notifyGeneric`; notifications whose payload a claim refers
to get structured constructors. -/

/-- One observable side effect of the orchestrator. -/
inductive Event where
  | setRequestStatus (reqId : Nat) (status : String)
  | setRequestSheetName (reqId : Nat) (name : String)
  | setRequestCounts (reqId listings pages : Nat)
  | setLinkStatus (linkId : Nat) (status : String) (errText : Option String)
  | incrementRetry (linkId : Nat)
  | setLinkListingsCount (linkId count : Nat)
  | saveListing (url : String) (linkNumber : Nat)
  | createSheet (name : String)
  | appendSheet (sheetName : String) (rows : List Listing)
  | notifyWaitingRetry (linkNumber minutes : Nat)
  | waitMinutes (minutes : Nat) (linkNumber : Nat)
  | notifyStartingLink (linkNumber retryAttempt : Nat)
  | notifyWillRetry (linkNumber attempt : Nat)
  | notifyPermanentFail (linkNumber : Nat)
  | notifyLinkDone (linkNumber found kept : Nat)
  | notifyPausedWithResume (reqId : Nat)
  | notifyGeneric (text : String)
  deriving DecidableEq, Repr

/-- An entry of the in-memory retry queue: `queueItem{link, retryCount}`. -/
structure QueueItem where
  link : SearchLink
  retryCount : Nat
  deriving DecidableEq, Repr

/-- The collaborators and failure injections one run of `processNextRequest`
is wired to, indexed where relevant by the pop-step number (0-based count of
queue pops so far). -/
structure Env where
  /-- `filter.Filter.matchesFilters` under the user's config. -/
  keep : Listing → Bool
  /-- per pop-step: `fetcher.Fetch` outcome, with per-page `parser.ParseHTML`
  outcomes inside. -/
  fetchParse : Nat → Except String (List (Except String (List Listing)))
  /-- per pop-step, per job index: detail fetch + parse outcome. -/
  detailOracle : Nat → Nat → Listing → Option DetailData
  /-- per pop-step: worker-pool result arrival order. -/
  arrival : Nat → List Nat
  /-- `GetSearchLinksByRequestID` failure. -/
  getLinksError : Option String
  /-- `CreateSearchLinks` failure (legacy single-URL request path). -/
  createLinksError : Option String
  /-- `GetUserConfig` failure. -/
  configError : Option String
  /-- `sheets.Writer.CreateEmptySheet` failure. -/
  sheetCreateError : Option String
  /-- `fetcher.NewRodFetcher` (browser creation) failure. -/
  fetcherCreateError : Option String

/-- The in-memory state of the link-processing loop. -/
structure LoopState where
  db : DBState
  queue : List QueueItem
  seen : List (String × Nat)
  events : List Event
  linksSuccessful : Nat
  linksFailed : Nat
  consecutiveFailures : Nat
  allEnriched : List Listing
  allUnfiltered : List Listing
  totalPagesFetched : Nat
  totalListingsBeforeFilter : Nat
  stepIdx : Nat
  sheetName : String
  deriving Repr

/-- Whether one loop iteration returned early (the pause circuit breaker) or
fell through to the next iteration. -/
inductive StepResult where
  | pausedReturn (st : LoopState)
  | continueLoop (st : LoopState)

/-- The back-off computation of lines 318-327: before a retry
(`retryCount > 0`), notify and sleep `3 + (retryCount-1)` minutes, capped at
5.  No wait for a first attempt. -/
def backoffEvents (item : QueueItem) : List Event :=
  if item.retryCount > 0 then
    let waitM := 3 + (item.retryCount - 1)
    let waitM := if waitM > 5 then 5 else waitM
    [Event.notifyWaitingRetry item.link.linkNumber waitM,
     Event.waitMinutes waitM item.link.linkNumber]
  else []

/-- The body of one loop iteration after `processSearchLink` returned `out`
(split out of `runStep` so facts about the two can be stated separately). -/
def runStepWith (req : Request) (item : QueueItem) (st : LoopState)
    (out : LinkProcOutput) : StepResult :=
  let link := item.link
  let st : LoopState := { st with
    db := { tryUpdateSearchLinkStatus st.db link.id "in_progress" none with
            listingRows := st.db.listingRows ++ out.savedRows },
    seen := out.seen,
    events := st.events ++ backoffEvents item
      ++ [Event.notifyStartingLink link.linkNumber item.retryCount,
          Event.setLinkStatus link.id "in_progress" none]
      ++ out.savedRows.map (fun r => Event.saveListing r.1 r.2),
    stepIdx := st.stepIdx + 1 }
  match out.err with
  | some e =>
    let cf := st.consecutiveFailures + 1
    if 2 ≤ cf then
      -- circuit breaker: mark the failing link pending, try to set the
      -- request paused (the CHECK constraint rejects it; only logged),
      -- notify with a Continue button, and return without draining
      let db3 := tryUpdateSearchLinkStatus st.db link.id "pending" none
      let db4 := tryUpdateRequestStatus db3 "paused"
      let evP := st.events ++ [Event.setLinkStatus link.id "pending" none,
        Event.setRequestStatus req.id "paused",
        Event.notifyPausedWithResume req.id]
      .pausedReturn { st with db := db4, consecutiveFailures := cf, events := evP }
    else if item.retryCount < 3 then
      -- increment the stored retry count, re-read the row, push to the tail
      let db3 := incrementSearchLinkRetry st.db link.id
      let requeued : QueueItem :=
        match getSearchLinkByID db3 link.id with
        | some updated => { link := updated, retryCount := updated.retryCount }
        | none => { link := link, retryCount := item.retryCount + 1 }
      let stR : LoopState := { st with
        db := db3, queue := st.queue ++ [requeued],
        consecutiveFailures := cf,
        events := st.events ++ [Event.incrementRetry link.id,
          Event.notifyWillRetry link.linkNumber (item.retryCount + 1)] }
      .continueLoop stR
    else
      -- max retries reached: permanently failed, record the error text
      let db3 := tryUpdateSearchLinkStatus st.db link.id "failed" (some e)
      let stF : LoopState := { st with
        db := db3, consecutiveFailures := cf,
        linksFailed := st.linksFailed + 1,
        events := st.events ++ [Event.setLinkStatus link.id "failed" (some e),
          Event.notifyPermanentFail link.linkNumber] }
      .continueLoop stF
  | none =>
    -- success: the consecutive-failure counter resets to zero
    let db3 := tryUpdateSearchLinkStatus st.db link.id "done" none
    let db4 := updateSearchLinkListingsCount db3 link.id out.enriched.length
    let stS : LoopState := { st with
      db := db4, consecutiveFailures := 0,
      linksSuccessful := st.linksSuccessful + 1,
      totalPagesFetched := st.totalPagesFetched + out.pagesFetched,
      totalListingsBeforeFilter := st.totalListingsBeforeFilter + out.totalListings,
      allEnriched := st.allEnriched ++ out.enriched,
      allUnfiltered := st.allUnfiltered ++ out.unfiltered,
      events := st.events ++ [Event.setLinkStatus link.id "done" none,
        Event.setLinkListingsCount link.id out.enriched.length,
        Event.appendSheet st.sheetName (out.enriched ++ out.unfiltered),
        Event.notifyLinkDone link.linkNumber out.totalListings out.enriched.length] }
    .continueLoop stS

/-- One iteration of the `for len(queue) > 0` loop (lines 311-437), applied to
the popped `item`; `st.queue` is already the rest of the queue. -/
def runStep (env : Env) (req : Request) (item : QueueItem) (st : LoopState) : StepResult :=
  runStepWith req item st (processSearchLink env.keep (env.fetchParse st.stepIdx)
    (env.detailOracle st.stepIdx) (env.arrival st.stepIdx) item.link.linkNumber st.seen)

/-- Result of draining the queue: the final loop state, whether the circuit
breaker returned early, and whether the supplied fuel ran out (a model
artifact only; the Go loop terminates because retry counts strictly grow). -/
structure QueueRunResult where
  state : LoopState
  pausedFlag : Bool
  outOfFuel : Bool

/-- The `for len(queue) > 0` loop: pop the head, run one iteration, stop on a
pause return. -/
def runQueue (env : Env) (req : Request) : Nat → LoopState → QueueRunResult
  | 0, st => { state := st, pausedFlag := false, outOfFuel := !st.queue.isEmpty }
  | fuel + 1, st =>
    match st.queue with
    | [] => { state := st, pausedFlag := false, outOfFuel := false }
    | item :: rest =>
      match runStep env req item { st with queue := rest } with
      | .pausedReturn s => { state := s, pausedFlag := true, outOfFuel := false }
      | .continueLoop s => runQueue env req fuel s

/-- What one `processNextRequest` run returns to the scheduler loop. -/
structure RunResult where
  events : List Event
  db : DBState
  pausedFlag : Bool
  outOfFuel : Bool
  leftoverQueue : List QueueItem
  linksSuccessful : Nat
  linksFailed : Nat
  allEnriched : List Listing
  allUnfiltered : List Listing
  seen : List (String × Nat)
  deriving Repr

/-- `scheduler.handleRequestError` (lines 896-903): set the request `failed`
(an error from the update is only logged) and notify. -/
def handleRequestError (req : Request) (db : DBState) (events : List Event)
    (e : String) : RunResult :=
  { events := events ++ [Event.setRequestStatus req.id "failed",
      Event.notifyGeneric ("Error processing request: " ++ e)],
    db := tryUpdateRequestStatus db "failed",
    pausedFlag := false, outOfFuel := false, leftoverQueue := [],
    linksSuccessful := 0, linksFailed := 0, allEnriched := [], allUnfiltered := [],
    seen := [] }

/-- Lines 303-500 of `processNextRequest` once setup succeeded: drain the
queue from `st0`; early-return the loop state on a pause (or when the model
fuel runs out); otherwise escalate to `handleRequestError` when nothing was
produced and no link succeeded, else record counts, mark the request `done`
and notify. -/
def mainLoopResult (env : Env) (req : Request) (fuel : Nat) (st0 : LoopState) : RunResult :=
  let r := runQueue env req fuel st0
  if r.pausedFlag || r.outOfFuel then
    { events := r.state.events, db := r.state.db, pausedFlag := r.pausedFlag,
      outOfFuel := r.outOfFuel, leftoverQueue := r.state.queue,
      linksSuccessful := r.state.linksSuccessful, linksFailed := r.state.linksFailed,
      allEnriched := r.state.allEnriched, allUnfiltered := r.state.allUnfiltered,
      seen := r.state.seen }
  else
    let totalFiltered := r.state.allEnriched.length
    if totalFiltered = 0 ∧ r.state.linksSuccessful = 0 then
      -- every link permanently failed and nothing was produced
      handleRequestError req r.state.db r.state.events "all links failed to process"
    else
      let dbF := tryUpdateRequestStatus
        (updateRequestCounts r.state.db totalFiltered r.state.totalPagesFetched) "done"
      { events := r.state.events
          ++ [Event.setRequestCounts req.id totalFiltered r.state.totalPagesFetched,
              Event.setRequestStatus req.id "done",
              Event.notifyGeneric "Completed"],
        db := dbF, pausedFlag := false, outOfFuel := false, leftoverQueue := [],
        linksSuccessful := r.state.linksSuccessful, linksFailed := r.state.linksFailed,
        allEnriched := r.state.allEnriched, allUnfiltered := r.state.allUnfiltered,
        seen := r.state.seen }

/-- Does the request carry a reusable stored sheet name
(`req.SheetName.Valid && req.SheetName.String != ""`, line 211)? -/
def sheetNameReusable (req : Request) : Bool :=
  match req.sheetName with
  | some s => s != ""
  | none => false

/-- Lines 254-273: hydrate the dedup map on resume from the stored listings
of the links already `done` (nothing is read when no link is done). -/
def hydrateSeen (links : List SearchLink) (rows : List (String × Nat)) :
    List (String × Nat) :=
  let doneLinkNumbers := (links.filter (fun l => l.status == "done")).map (fun l => l.linkNumber)
  if doneLinkNumbers.isEmpty then []
  else rows.filter (fun r => doneLinkNumbers.contains r.2)

/-- Lines 286-299: the initial retry queue — every link not already `done`,
in stored order, with its stored retry count. -/
def initialQueue (links : List SearchLink) : List QueueItem :=
  (links.filter (fun l => l.status != "done")).map (fun l => { link := l, retryCount := l.retryCount })

/-- Links skipped as already `done` count as successful from the start. -/
def doneLinksCount (links : List SearchLink) : Nat :=
  (links.filter (fun l => l.status == "done")).length

/-- Stored listings-count total of the already-`done` links. -/
def doneListingsTotal (links : List SearchLink) : Nat :=
  ((links.filter (fun l => l.status == "done")).map (fun l => l.listingsCount)).sum

/-- `scheduler.processNextRequest` (lines 139-500) for one claimed request
`req` whose durable state is `db0`.  `fuel` bounds the number of loop
iterations (a model artifact; see `runQueue`). -/
def processNextRequest (env : Env) (req : Request) (db0 : DBState) (fuel : Nat) : RunResult :=
  -- mark the request in_progress ('in_progress' satisfies the CHECK, so the
  -- guarded update cannot fail here; a failure would abort the run)
  let db1 := tryUpdateRequestStatus db0 "in_progress"
  let evs := [Event.setRequestStatus req.id "in_progress"]
  match env.getLinksError with
  | some e => handleRequestError req db1 evs e
  | none =>
  -- legacy request with no links: create a single link from the request URL
  match (if db1.links.isEmpty then env.createLinksError else none) with
  | some e => handleRequestError req db1 evs e
  | none =>
  let legacyLink : SearchLink :=
    { id := 1, requestId := req.id, linkNumber := 1, url := req.url,
      status := "pending", retryCount := 0, listingsCount := 0, lastError := none }
  let db2 := if db1.links.isEmpty then { db1 with links := [legacyLink] } else db1
  let searchLinks := db2.links
  let evs := evs ++ [Event.notifyGeneric "Processing request"]
  match env.configError with
  | some e => handleRequestError req db2 evs e
  | none =>
  -- create the sink sheet, or reuse the stored name when resuming
  match (if sheetNameReusable req then none else env.sheetCreateError) with
  | some e => handleRequestError req db2 evs e
  | none =>
  let sheetName := match req.sheetName with
    | some s => if s != "" then s else "Request_" ++ toString req.id
    | none => "Request_" ++ toString req.id
  let db3 := if sheetNameReusable req then db2 else updateRequestSheetName db2 sheetName
  let evs := evs ++ (if sheetNameReusable req then []
    else [Event.createSheet sheetName, Event.setRequestSheetName req.id sheetName,
          Event.notifyGeneric "Sheet ready"])
  -- create the browser fetcher on demand
  match env.fetcherCreateError with
  | some e => handleRequestError req db3 evs e
  | none =>
  let st0 : LoopState := {
    db := db3,
    queue := initialQueue searchLinks,
    seen := hydrateSeen searchLinks db3.listingRows,
    events := evs,
    linksSuccessful := doneLinksCount searchLinks,
    linksFailed := 0,
    consecutiveFailures := 0,
    allEnriched := [], allUnfiltered := [],
    totalPagesFetched := 0,
    totalListingsBeforeFilter := doneListingsTotal searchLinks,
    stepIdx := 0,
    sheetName := sheetName }
  mainLoopResult env req fuel st0

/-- Modelled from the spec: the "resume a paused Request" control operation is
not among the source files (only its callback payload `resume|<id>` and the
claim-by-status read are); per §6 it "simply flips it back to claimable",
and `GetNextCreatedRequest` claims rows `WHERE status = 'created'`, a status
the `valid_status` CHECK accepts. -/
def resumeRequest (db : DBState) : DBState :=
  tryUpdateRequestStatus db "created"

/-- The request row as the scheduler re-reads it when claiming the request
again after a resume. -/
def reloadRequest (req : Request) (db : DBState) : Request :=
  { req with status := db.reqStatus, sheetName := db.sheetName }

/-! ## Projections used to state properties -/

/-- The loop state carried by either kind of step outcome. -/
def stOf : StepResult → LoopState
  | .pausedReturn st => st
  | .continueLoop st => st

/-- Did the iteration return early through the circuit breaker? -/
def isPausedStep : StepResult → Bool
  | .pausedReturn _ => true
  | .continueLoop _ => false

/-- The `search_links` row id an event writes to, if any. -/
def eventLinkId : Event → Option Nat
  | .setLinkStatus i _ _ => some i
  | .incrementRetry i => some i
  | .setLinkListingsCount i _ => some i
  | _ => none

/-- URLs of a listing list. -/
def listingURLs (ls : List Listing) : List String := ls.map (fun l => l.url)

/-- URLs owned in a dedup map. -/
def seenURLs (seen : List (String × Nat)) : List String := seen.map Prod.fst

/-- Which events the link-processing loop may emit: never sheet creation,
sheet-name or count writes; request-status writes only the breaker's
`paused` attempt; sheet appends only to the fixed sheet `sh`; link-row
writes only to links whose id is in `S`. -/
def EventScope (S : List Nat) (sh : String) : Event → Prop
  | .createSheet _ => False
  | .setRequestSheetName _ _ => False
  | .setRequestCounts _ _ _ => False
  | .setRequestStatus _ s => s = "paused"
  | .appendSheet nm _ => nm = sh
  | .setLinkStatus i _ _ => i ∈ S
  | .incrementRetry i => i ∈ S
  | .setLinkListingsCount i _ => i ∈ S
  | _ => True

/-- The queue/store consistency the Go loop maintains: row ids are unique,
each queued link occurs at most once, and a queued item carries the current
stored row of its link (in particular the stored retry count). -/
def QueueSync (db : DBState) (queue : List QueueItem) : Prop :=
  (db.links.map (fun l => l.id)).Nodup ∧
  (queue.map (fun item => item.link.id)).Nodup ∧
  ∀ item ∈ queue, getSearchLinkByID db item.link.id = some item.link ∧
    item.retryCount = item.link.retryCount

/-- Retry counts stored for the request's links are all within the cap. -/
def RetryCapOK (db : DBState) : Prop :=
  ∀ l ∈ db.links, l.retryCount ≤ 3

/-- Dedup bookkeeping the loop maintains relative to the hydrated map `base`
and the listing rows `rows0` present when the loop started: the dedup map only
grows from `base`; every row persisted by the loop is owned in the map by the
link it is attributed to, with a URL that was not in `base`; and every listing
accumulated for the sink avoids the URLs of `base`. -/
def DedupFresh (base rows0 : List (String × Nat)) (st : LoopState) : Prop :=
  (∃ d, st.seen = base ++ d) ∧
  (∃ newRows, st.db.listingRows = rows0 ++ newRows ∧
    ∀ p ∈ newRows, p ∈ st.seen ∧ seenLookup base p.1 = none) ∧
  (∀ l ∈ st.allEnriched ++ st.allUnfiltered, seenLookup base l.url = none)

/-- Uniqueness side of the dedup bookkeeping: each URL has at most one owner
in the map, and the loop never persists the same URL twice. -/
def DedupNodup (rows0 : List (String × Nat)) (st : LoopState) : Prop :=
  (seenURLs st.seen).Nodup ∧
  (∃ newRows, st.db.listingRows = rows0 ++ newRows ∧ (newRows.map Prod.fst).Nodup)

/-! ## Concrete scenarios

Closed inputs used to exercise the model: a request with three links, and the
environments wiring specific collaborator outcomes to each pop step. -/

/-- A pending `search_links` row with the given id/number/status/retry count. -/
def scenLink (i ln : Nat) (status : String) (rc : Nat) : SearchLink :=
  { id := i, requestId := 1, linkNumber := ln, url := "u" ++ toString ln,
    status := status, retryCount := rc, listingsCount := 0, lastError := none }

/-- A freshly created request. -/
def scenReq : Request :=
  { id := 1, userId := 7, url := "base", status := "created", sheetName := none }

/-- Baseline environment: filter keeps listings titled `"keep"`, all setup
steps succeed, every detail fetch succeeds, single-job arrival order. -/
def scenEnvBase : Env :=
  { keep := fun l => l.title == "keep",
    fetchParse := fun _ => .error "unused",
    detailOracle := fun _ _ _ => some {},
    arrival := fun _ => [0],
    getLinksError := none, createLinksError := none, configError := none,
    sheetCreateError := none, fetcherCreateError := none }

/-- Three pending links, no rows yet. -/
def scenDB3 : DBState :=
  { reqStatus := "created", sheetName := none,
    links := [scenLink 1 1 "pending" 0, scenLink 2 2 "pending" 0, scenLink 3 3 "pending" 0],
    listingRows := [], listingsCount := 0, pagesCount := 0 }

/-- Pause scenario: link 1 succeeds with an empty page, links 2 and 3 fail
back to back — the second consecutive failure trips the breaker. -/
def scenEnvPause : Env :=
  { scenEnvBase with
    fetchParse := fun step => if step = 0 then .ok [.ok []] else .error "blocked" }

/-- Retry-boundary scenario: a single link already at stored retry count 2;
its next attempt fails (count becomes 3 and it is re-queued), the attempt
after that succeeds. -/
def scenEnvRetry : Env :=
  { scenEnvBase with
    fetchParse := fun step => if step = 0 then .error "boom" else .ok [.ok []] }

/-- One link resumed at retry count 2. -/
def scenDBRetry : DBState :=
  { reqStatus := "created", sheetName := none,
    links := [scenLink 1 1 "pending" 2],
    listingRows := [], listingsCount := 0, pagesCount := 0 }

/-- A listing that fails the `title == "keep"` filter, and the same URL as a
listing that passes it. -/
def scenListingNo : Listing := { title := "no", url := "U" }

/-- The same URL later parsed with a filter-passing title. -/
def scenListingKeep : Listing := { title := "keep", url := "U" }

/-- First run of the resume scenario: link 1 parses `scenListingNo` (kept set
empty, unfiltered set owns URL `"U"`), then links 2 and 3 fail and pause the
request. -/
def scenEnvRun1 : Env :=
  { scenEnvBase with
    fetchParse := fun step => if step = 0 then .ok [.ok [scenListingNo]] else .error "blocked" }

/-- Second run after resume: link 2 now parses the same URL `"U"` with a
filter-passing listing, link 3 parses an empty page. -/
def scenEnvRun2 : Env :=
  { scenEnvBase with
    fetchParse := fun step => if step = 0 then .ok [.ok [scenListingKeep]] else .ok [.ok []] }

/-- Setup-failure scenario: the browser fetcher cannot be created; everything
else is healthy. -/
def scenEnvNoBrowser : Env :=
  { scenEnvBase with fetcherCreateError := some "browser start failed" }

/-- A resumed request carrying its stored sheet name. -/
def scenReqSheet : Request := { scenReq with sheetName := some "Sheet1" }

/-- Resumed state for the sheet-reuse scenario: link 1 already done with one
stored listing row, links 2 and 3 still pending. -/
def scenDBResume : DBState :=
  { reqStatus := "in_progress", sheetName := some "Sheet1",
    links := [{ scenLink 1 1 "done" 0 with listingsCount := 1 },
              scenLink 2 2 "pending" 0, scenLink 3 3 "pending" 0],
    listingRows := [("U", 1)], listingsCount := 0, pagesCount := 0 }

/-- Environment for the sheet-reuse scenario: both remaining links succeed,
link 2 re-parsing the already-attributed URL `"U"`. -/
def scenEnvResume : Env :=
  { scenEnvBase with
    fetchParse := fun step => if step = 0 then .ok [.ok [scenListingKeep]] else .ok [.ok []] }

/-- Sharding scenario: a search URL with `price_min=0&price_max=200`, an
unrelated `adults` parameter and a selected-filter list mixing price and
non-price entries. -/
def scenShardURL : URLQ :=
  ⟨"https://www.airbnb.com/s/Bangkok/homes",
   [("adults", ["2"]),
    ("price_min", ["0"]),
    ("price_max", ["200"]),
    ("selected_filter_order[]", ["amenity:33", "price_min:0", "price_max:200"])]⟩

/-- Sharding scenario: no `price_max` parameter at all. -/
def scenShardNoMax : URLQ :=
  ⟨"https://www.airbnb.com/s/Bangkok/homes", [("adults", ["2"])]⟩

/-- Sharding scenario: `price_min` not strictly below `price_max`. -/
def scenShardDegen : URLQ :=
  ⟨"https://www.airbnb.com/s/Bangkok/homes",
   [("price_min", ["300"]), ("price_max", ["200"])]⟩

/-- A bare loop state over the three-link store. -/
def scenSt0 : LoopState :=
  { db := scenDB3, queue := [], seen := [], events := [], linksSuccessful := 0,
    linksFailed := 0, consecutiveFailures := 0, allEnriched := [], allUnfiltered := [],
    totalPagesFetched := 0, totalListingsBeforeFilter := 0, stepIdx := 0,
    sheetName := "Request_1" }

/-- Mid-loop state after one consecutive failure, with link 2 still queued. -/
def scenStBreaker : LoopState :=
  { scenSt0 with
    consecutiveFailures := 1,
    queue := [{ link := scenLink 2 2 "pending" 0, retryCount := 0 }] }

/-- The popped item of link 3 at its first attempt. -/
def scenItem3 : QueueItem := { link := scenLink 3 3 "pending" 0, retryCount := 0 }

/-- A failed link-processing outcome (nothing produced, an error text). -/
def scenOutErr : LinkProcOutput :=
  { enriched := [], unfiltered := [], pagesFetched := 0, totalListings := 0,
    seen := [], savedRows := [], err := some "fetch failed: blocked" }

/-- The popped item of a link whose stored retry count is already 2. -/
def scenItemR : QueueItem := { link := scenLink 1 1 "pending" 2, retryCount := 2 }

/-- Loop state over the single-link store of the retry scenario. -/
def scenStR : LoopState := { scenSt0 with db := scenDBRetry }

/-- A popped item at retry count 4 (only reachable counts are ≤ 3; used to
exercise the back-off cap formula). -/
def scenItemB4 : QueueItem := { link := scenLink 1 1 "pending" 4, retryCount := 4 }

/-! # Theorems -/

/-! ## Dedup map lemmas -/

theorem seenLookup_append_none_iff (s1 s2 : List (String × Nat)) (u : String) :
    seenLookup (s1 ++ s2) u = none ↔ seenLookup s1 u = none ∧ seenLookup s2 u = none := by
  unfold seenLookup
  rw [List.find?_append]
  cases h : s1.find? (fun p => p.1 == u) <;> simp [h]

theorem seenLookup_singleton_none {a : String} {n : Nat} {u : String}
    (h : seenLookup [(a, n)] u = none) : a ≠ u := by
  intro he
  subst he
  simp [seenLookup] at h

theorem seenLookup_none_not_mem {s : List (String × Nat)} {u : String}
    (h : seenLookup s u = none) : u ∉ s.map Prod.fst := by
  intro hm
  rw [List.mem_map] at hm
  obtain ⟨p, hp, hpu⟩ := hm
  unfold seenLookup at h
  rw [Option.map_eq_none', List.find?_eq_none] at h
  exact absurd (by simp [hpu] : (p.1 == u) = true) (by simpa using h p hp)

theorem mem_seenLookup_ne_none {s : List (String × Nat)} {p : String × Nat}
    (hp : p ∈ s) : seenLookup s p.1 ≠ none := by
  intro h
  exact seenLookup_none_not_mem h (List.mem_map_of_mem Prod.fst hp)

theorem dedupFiltered_spec (ln : Nat) (ls : List Listing) :
    ∀ seen : List (String × Nat),
      (dedupFiltered ln ls seen).1 =
        seen ++ (dedupFiltered ln ls seen).2.map (fun l => (l.url, ln)) ∧
      (∀ l ∈ (dedupFiltered ln ls seen).2, seenLookup seen l.url = none) ∧
      ((dedupFiltered ln ls seen).2.map (fun l => l.url)).Nodup ∧
      (∀ l ∈ (dedupFiltered ln ls seen).2, l ∈ ls) := by
  induction ls with
  | nil => intro seen; simp [dedupFiltered]
  | cons l rest ih =>
    intro seen
    by_cases h : seenLookup seen l.url = none
    · simp only [dedupFiltered, if_pos h]
      obtain ⟨ih1, ih2, ih3, ih4⟩ := ih (seen ++ [(l.url, ln)])
      refine ⟨?_, ?_, ?_, ?_⟩
      · rw [List.map_cons]
        rw [ih1]
        simp
      · intro l' hl'
        rcases List.mem_cons.mp hl' with rfl | hl'
        · exact h
        · exact ((seenLookup_append_none_iff _ _ _).mp (ih2 l' hl')).1
      · rw [List.map_cons, List.nodup_cons]
        refine ⟨?_, ih3⟩
        intro hmem
        rw [List.mem_map] at hmem
        obtain ⟨l', hl', hurl⟩ := hmem
        exact seenLookup_singleton_none
          ((seenLookup_append_none_iff _ _ _).mp (ih2 l' hl')).2 hurl.symm
      · intro l' hl'
        rcases List.mem_cons.mp hl' with rfl | hl'
        · exact List.mem_cons_self _ _
        · exact List.mem_cons_of_mem _ (ih4 l' hl')
    · simp only [dedupFiltered, if_neg h]
      obtain ⟨ih1, ih2, ih3, ih4⟩ := ih seen
      exact ⟨ih1, ih2, ih3, fun l' hl' => List.mem_cons_of_mem _ (ih4 l' hl')⟩

theorem dedupUnfiltered_spec (ln : Nat) (fus : List String) (ls : List Listing) :
    ∀ seen : List (String × Nat),
      (dedupUnfiltered ln fus ls seen).1 =
        seen ++ (dedupUnfiltered ln fus ls seen).2.map (fun l => (l.url, ln)) ∧
      (∀ l ∈ (dedupUnfiltered ln fus ls seen).2, seenLookup seen l.url = none) ∧
      ((dedupUnfiltered ln fus ls seen).2.map (fun l => l.url)).Nodup ∧
      (∀ l ∈ (dedupUnfiltered ln fus ls seen).2, l.linkNumber = ln) := by
  induction ls with
  | nil => intro seen; simp [dedupUnfiltered]
  | cons l rest ih =>
    intro seen
    by_cases hf : fus.contains l.url
    · simp only [dedupUnfiltered, if_pos hf]
      exact ih seen
    · by_cases h : seenLookup seen l.url = none
      · simp only [dedupUnfiltered, if_neg hf, if_pos h]
        obtain ⟨ih1, ih2, ih3, ih4⟩ := ih (seen ++ [(l.url, ln)])
        refine ⟨?_, ?_, ?_, ?_⟩
        · rw [List.map_cons]
          rw [ih1]
          simp
        · intro l' hl'
          rcases List.mem_cons.mp hl' with rfl | hl'
          · exact h
          · exact ((seenLookup_append_none_iff _ _ _).mp (ih2 l' hl')).1
        · rw [List.map_cons, List.nodup_cons]
          refine ⟨?_, ih3⟩
          intro hmem
          rw [List.mem_map] at hmem
          obtain ⟨l', hl', hurl⟩ := hmem
          exact seenLookup_singleton_none
            ((seenLookup_append_none_iff _ _ _).mp (ih2 l' hl')).2 hurl.symm
        · intro l' hl'
          rcases List.mem_cons.mp hl' with rfl | hl'
          · rfl
          · exact ih4 l' hl'
      · simp only [dedupUnfiltered, if_neg hf, if_neg h]
        exact ih seen

/-! ## Durable store helper lemmas -/

theorem tryUpdateRequestStatus_allowed (db : DBState) (s : String)
    (h : requestStatusAllowed s = true) :
    tryUpdateRequestStatus db s = { db with reqStatus := s } := by
  unfold tryUpdateRequestStatus updateRequestStatus
  rw [if_pos h]

theorem tryUpdateRequestStatus_rejected (db : DBState) (s : String)
    (h : requestStatusAllowed s = false) :
    tryUpdateRequestStatus db s = db := by
  unfold tryUpdateRequestStatus updateRequestStatus
  rw [h]
  simp

theorem tryUpdateRequestStatus_paused (db : DBState) :
    tryUpdateRequestStatus db "paused" = db :=
  tryUpdateRequestStatus_rejected db "paused" rfl

theorem tryUpdateSearchLinkStatus_allowed (db : DBState) (i : Nat) (s : String)
    (e : Option String) (h : searchLinkStatusAllowed s = true) :
    tryUpdateSearchLinkStatus db i s e =
      updateLinkRow db i (fun l => { l with status := s, lastError := e }) := by
  unfold tryUpdateSearchLinkStatus updateSearchLinkStatus
  rw [if_pos h]

theorem getSearchLinkByID_listingRows (db : DBState) (rows : List (String × Nat))
    (j : Nat) : getSearchLinkByID { db with listingRows := rows } j = getSearchLinkByID db j := rfl

theorem getSearchLinkByID_updateLinkRow (db : DBState) (i j : Nat)
    (f : SearchLink → SearchLink) (hf : ∀ l, (f l).id = l.id) :
    getSearchLinkByID (updateLinkRow db i f) j =
      if i = j then (getSearchLinkByID db j).map f else getSearchLinkByID db j := by
  unfold getSearchLinkByID updateLinkRow
  simp only
  induction db.links with
  | nil => split <;> rfl
  | cons l ls ih =>
    by_cases hlj : l.id = j
    · by_cases hij : i = j
      · have hmap : (if l.id = i then f l else l).id = j := by
          split
          · rw [hf]; exact hlj
          · exact hlj
        rw [List.map_cons,
          List.find?_cons_of_pos _ (by simp [hmap]),
          List.find?_cons_of_pos _ (by simp [hlj]),
          if_pos hij, if_pos (hij ▸ hlj)]
        simp
      · have hli : l.id ≠ i := fun h => hij (by rw [← h, hlj])
        rw [List.map_cons, if_neg hli,
          List.find?_cons_of_pos _ (by simp [hlj]),
          List.find?_cons_of_pos _ (by simp [hlj]),
          if_neg hij]
    · have hmap : ¬((if l.id = i then f l else l).id = j) := by
        split
        · rw [hf]; exact hlj
        · exact hlj
      rw [List.map_cons,
        List.find?_cons_of_neg _ (by simp [hmap]),
        List.find?_cons_of_neg _ (by simp [hlj])]
      exact ih

theorem getSearchLinkByID_setStatus (db : DBState) (i : Nat) (s : String)
    (e : Option String) :
    getSearchLinkByID (updateLinkRow db i (fun l => { l with status := s, lastError := e })) i
      = (getSearchLinkByID db i).map (fun l => { l with status := s, lastError := e }) := by
  rw [getSearchLinkByID_updateLinkRow db i i
    (fun l => { l with status := s, lastError := e }) (fun l => rfl), if_pos rfl]

theorem getSearchLinkByID_setStatus_ne (db : DBState) (i j : Nat) (s : String)
    (e : Option String) (h : i ≠ j) :
    getSearchLinkByID (updateLinkRow db i (fun l => { l with status := s, lastError := e })) j
      = getSearchLinkByID db j := by
  rw [getSearchLinkByID_updateLinkRow db i j
    (fun l => { l with status := s, lastError := e }) (fun l => rfl), if_neg h]

theorem getSearchLinkByID_increment (db : DBState) (i : Nat) :
    getSearchLinkByID (incrementSearchLinkRetry db i) i
      = (getSearchLinkByID db i).map
          (fun l => { l with retryCount := l.retryCount + 1, status := "pending" }) := by
  unfold incrementSearchLinkRetry
  rw [getSearchLinkByID_updateLinkRow db i i
    (fun l => { l with retryCount := l.retryCount + 1, status := "pending" })
    (fun l => rfl), if_pos rfl]

theorem getSearchLinkByID_setCount (db : DBState) (i c : Nat) :
    getSearchLinkByID (updateSearchLinkListingsCount db i c) i
      = (getSearchLinkByID db i).map (fun l => { l with listingsCount := c }) := by
  unfold updateSearchLinkListingsCount
  rw [getSearchLinkByID_updateLinkRow db i i
    (fun l => { l with listingsCount := c }) (fun l => rfl), if_pos rfl]

theorem updateLinkRow_reqStatus (db : DBState) (i : Nat) (f : SearchLink → SearchLink) :
    (updateLinkRow db i f).reqStatus = db.reqStatus := rfl

theorem updateLinkRow_listingRows (db : DBState) (i : Nat) (f : SearchLink → SearchLink) :
    (updateLinkRow db i f).listingRows = db.listingRows := rfl

/-! ## Link processor lemmas -/

theorem processSearchLink_err_shape (k : Listing → Bool)
    (fp : Except String (List (Except String (List Listing))))
    (o : Nat → Listing → Option DetailData) (arr : List Nat) (ln : Nat)
    (s0 : List (String × Nat)) :
    (processSearchLink k fp o arr ln s0).err = none ∨
    ∃ e, processSearchLink k fp o arr ln s0 =
      { enriched := [], unfiltered := [], pagesFetched := 0, totalListings := 0,
        seen := s0, savedRows := [], err := some e } := by
  simp only [processSearchLink]
  split
  · exact Or.inr ⟨_, rfl⟩
  · split
    · exact Or.inr ⟨_, rfl⟩
    · split
      · exact Or.inl rfl
      · split
        · exact Or.inl rfl
        · exact Or.inl rfl

theorem mem_parsePages_linkNumber
    (pages : List (Except String (List Listing))) (ln : Nat) (l : Listing)
    (h : l ∈ pages.enum.flatMap (fun p =>
      match p.2 with
      | .error _ => []
      | .ok ls => ls.map (fun l => { l with pageNumber := p.1 + 1, linkNumber := ln }))) :
    l.linkNumber = ln := by
  rw [List.mem_flatMap] at h
  obtain ⟨⟨i, pr⟩, _, hl⟩ := h
  cases pr with
  | error e => simp at hl
  | ok ls =>
    simp only at hl
    rw [List.mem_map] at hl
    obtain ⟨l', _, rfl⟩ := hl
    rfl

/-! ## Worker pool lemmas -/

theorem enrichJobResult_index (u : String → Option Nat)
    (o : Nat → Listing → Option DetailData) (i : Nat) (l : Listing) :
    (enrichJobResult u o i l).index = i := by
  cases hu : u l.url <;> cases ho : o i l <;> simp [enrichJobResult, hu, ho]

theorem enrichJobResult_listing_url (u : String → Option Nat)
    (o : Nat → Listing → Option DetailData) (i : Nat) (l : Listing) :
    (enrichJobResult u o i l).listing.url = l.url := by
  cases hu : u l.url <;> cases ho : o i l <;>
    simp [enrichJobResult, hu, ho, mergeDetail]

theorem enrichJobResult_listing_linkNumber (u : String → Option Nat)
    (o : Nat → Listing → Option DetailData) (i : Nat) (l : Listing) :
    (enrichJobResult u o i l).listing.linkNumber = l.linkNumber := by
  cases hu : u l.url <;> cases ho : o i l <;>
    simp [enrichJobResult, hu, ho, mergeDetail]

theorem collect_foldl_length (rs : List EnrichResult) (acc : List Listing) :
    (rs.foldl collectResult acc).length = acc.length := by
  induction rs generalizing acc with
  | nil => rfl
  | cons r rs ih =>
    rw [List.foldl_cons, ih]
    unfold collectResult
    split <;> simp

theorem collect_foldl_getElem (resOf : Nat → EnrichResult)
    (hidx : ∀ i, (resOf i).index = i) (perm : List Nat) (acc : List Listing)
    (hnd : perm.Nodup) (j : Nat) :
    ((perm.map resOf).foldl collectResult acc)[j]? =
      if j ∈ perm ∧ (resOf j).success ∧ j < acc.length then some (resOf j).listing
      else acc[j]? := by
  induction perm generalizing acc with
  | nil => simp
  | cons i rest ih =>
    have hndr : rest.Nodup := hnd.of_cons
    have hir : i ∉ rest := (List.nodup_cons.mp hnd).1
    rw [List.map_cons, List.foldl_cons]
    have hlen : (collectResult acc (resOf i)).length = acc.length := by
      unfold collectResult; split <;> simp
    rw [ih (collectResult acc (resOf i)) hndr, hlen]
    by_cases hji : j = i
    · subst hji
      rw [if_neg (fun h => hir h.1)]
      simp only [List.mem_cons, true_or, true_and]
      unfold collectResult
      by_cases hs : (resOf j).success
      · rw [if_pos hs, hidx j]
        by_cases hjl : j < acc.length
        · simp [List.getElem?_set_self', hjl, hs]
        · rw [List.set_eq_of_length_le (by omega)]
          simp [hs, hjl]
      · simp [hs]
    · have hacc : (collectResult acc (resOf i))[j]? = acc[j]? := by
        unfold collectResult
        split
        · rw [hidx i]; exact List.getElem?_set_ne (fun h => hji h.symm)
        · rfl
      rw [hacc]
      simp only [List.mem_cons, hji, false_or]

theorem filter_map_combine {α β : Type} (g : α → β) (p : β → Bool) (q : α → Bool)
    (f : α → β) (xs : List α) (hq : ∀ x ∈ xs, p (g x) = q x)
    (hf : ∀ x ∈ xs, q x = true → g x = f x) :
    (xs.map g).filter p = (xs.filter q).map f := by
  induction xs with
  | nil => rfl
  | cons x xs ih =>
    simp only [List.map_cons, List.filter_cons]
    rw [hq x (List.mem_cons_self x xs)]
    by_cases hqx : q x
    · rw [if_pos hqx, if_pos hqx, List.map_cons,
        hf x (List.mem_cons_self x xs) hqx,
        ih (fun a ha => hq a (List.mem_cons_of_mem x ha))
           (fun a ha => hf a (List.mem_cons_of_mem x ha))]
    · rw [if_neg hqx, if_neg hqx,
        ih (fun a ha => hq a (List.mem_cons_of_mem x ha))
           (fun a ha => hf a (List.mem_cons_of_mem x ha))]

theorem mem_collect_foldl (rs : List EnrichResult) (acc : List Listing) (x : Listing)
    (hx : x ∈ rs.foldl collectResult acc) : x ∈ acc ∨ ∃ r ∈ rs, x = r.listing := by
  induction rs generalizing acc with
  | nil => exact Or.inl hx
  | cons r rest ih =>
    rw [List.foldl_cons] at hx
    rcases ih (collectResult acc r) hx with h | ⟨r', hr', hx'⟩
    · unfold collectResult at h
      split at h
      · rcases List.mem_or_eq_of_mem_set h with h' | h'
        · exact Or.inl h'
        · exact Or.inr ⟨r, List.mem_cons_self r rest, h'⟩
      · exact Or.inl h
    · exact Or.inr ⟨r', List.mem_cons_of_mem r hr', hx'⟩

theorem enrichListings_mem (listings : List Listing) (urlToID : String → Option Nat)
    (oracle : Nat → Listing → Option DetailData) (arrival : List Nat) (x : Listing)
    (hx : x ∈ enrichListings listings urlToID oracle arrival) :
    ∃ l ∈ listings, x.url = l.url ∧ x.linkNumber = l.linkNumber := by
  simp only [enrichListings] at hx
  split at hx
  · simp at hx
  · rw [List.mem_filter] at hx
    obtain ⟨hmem, hurl⟩ := hx
    rcases mem_collect_foldl _ _ _ hmem with h | ⟨r, hr, hx'⟩
    · rw [List.eq_of_mem_replicate h] at hurl
      simp [default] at hurl
    · rw [List.mem_map] at hr
      obtain ⟨i, _, hri⟩ := hr
      subst hri hx'
      by_cases hi : i < listings.length
      · refine ⟨listings.getD i default, ?_, ?_, ?_⟩
        · rw [List.getD_eq_getElem _ _ hi]
          exact List.getElem_mem hi
        · exact enrichJobResult_listing_url _ _ _ _
        · exact enrichJobResult_listing_linkNumber _ _ _ _
      · rw [List.getD_eq_default _ _ (by omega)] at hurl ⊢
        rw [enrichJobResult_listing_url] at hurl
        simp [default] at hurl

/-- **C7 — corrected.** Order preservation of the worker pool, as the code
has it: for any completion order (permutation of the job indices), the pool's
output is the successfully enriched listings, in input-index order; listings
whose enrichment failed are **dropped from the returned sequence** (their
slots stay zero and the final pass filters empty-URL slots out). -/
theorem enrichListings_order_preserving (listings : List Listing)
    (urlToID : String → Option Nat) (oracle : Nat → Listing → Option DetailData)
    (arrival : List Nat) (hperm : arrival.Perm (List.range listings.length)) :
    enrichListings listings urlToID oracle arrival =
      ((List.range listings.length).filter (fun j =>
          (enrichJobResult urlToID oracle j (listings.getD j default)).success
          && ((enrichJobResult urlToID oracle j (listings.getD j default)).listing.url != ""))).map
        (fun j => (enrichJobResult urlToID oracle j (listings.getD j default)).listing) := by
  simp only [enrichListings]
  by_cases h0 : listings.length = 0
  · simp [h0]
  · rw [if_neg h0]
    have hnd : arrival.Nodup := hperm.nodup_iff.mpr (List.nodup_range listings.length)
    have hmemiff : ∀ j, j ∈ arrival ↔ j < listings.length := by
      intro j; rw [hperm.mem_iff, List.mem_range]
    have hchar := collect_foldl_getElem
      (fun i => enrichJobResult urlToID oracle i (listings.getD i default))
      (fun i => enrichJobResult_index _ _ _ _) arrival
      (List.replicate listings.length default) hnd
    have hcoll : List.foldl collectResult (List.replicate listings.length default)
        (arrival.map (fun i => enrichJobResult urlToID oracle i (listings.getD i default)))
        = (List.range listings.length).map (fun j =>
            if (enrichJobResult urlToID oracle j (listings.getD j default)).success then
              (enrichJobResult urlToID oracle j (listings.getD j default)).listing
            else default) := by
      apply List.ext_getElem?
      intro j
      rw [hchar j]
      by_cases hj : j < listings.length
      · rw [List.getElem?_map, List.getElem?_range hj, Option.map_some']
        by_cases hs : (enrichJobResult urlToID oracle j (listings.getD j default)).success
        · rw [if_pos ⟨(hmemiff j).mpr hj, hs, by simpa using hj⟩, if_pos hs]
        · rw [if_neg (by tauto), if_neg hs, List.getElem?_replicate]
          simp [hj]
      · rw [if_neg (by simp [hmemiff, hj]), List.getElem?_replicate, if_neg hj,
          List.getElem?_map, List.getElem?_eq_none (by simpa using Nat.le_of_not_lt hj)]
        rfl
    rw [hcoll]
    apply filter_map_combine
    · intro j _
      by_cases hs : (enrichJobResult urlToID oracle j (listings.getD j default)).success
      · rw [if_pos hs, hs]
        generalize (enrichJobResult urlToID oracle j (listings.getD j default)).listing.url = u
        by_cases hu : u = "" <;> simp [hu]
      · rw [if_neg hs]
        rw [Bool.not_eq_true] at hs
        rw [hs, Bool.false_and]
        decide
    · intro j _ hqj
      simp only [Bool.and_eq_true] at hqj
      rw [if_pos hqj.1]

/-- **C7 — counterexample.** A single listing whose enrichment fails: the
claim says it appears in the output at its original index with its basic
fields preserved; the code returns the empty list — the listing is dropped. -/
theorem enrichListings_drops_failed :
    enrichListings [{ title := "t", url := "U" }] (fun _ => some 1) (fun _ _ => none) [0] = []
    ∧ ([] : List Listing) ≠ [{ title := "t", url := "U" }] := by
  constructor
  · rfl
  · decide

/-- Witness for C7 at a concrete input with a reversed completion order. -/
theorem enrichListings_order_preserving_witness :
    ([1, 0] : List Nat).Perm (List.range ([{ url := "a" }, { url := "b" }] : List Listing).length)
    ∧ enrichListings [{ url := "a" }, { url := "b" }] (fun _ => some 1) (fun _ _ => some {}) [1, 0] =
      ((List.range ([{ url := "a" }, { url := "b" }] : List Listing).length).filter (fun j =>
          (enrichJobResult (fun _ => some 1) (fun _ _ => some {}) j
            (([{ url := "a" }, { url := "b" }] : List Listing).getD j default)).success
          && ((enrichJobResult (fun _ => some 1) (fun _ _ => some {}) j
            (([{ url := "a" }, { url := "b" }] : List Listing).getD j default)).listing.url != ""))).map
        (fun j => (enrichJobResult (fun _ => some 1) (fun _ _ => some {}) j
            (([{ url := "a" }, { url := "b" }] : List Listing).getD j default)).listing) :=
  ⟨by decide, enrichListings_order_preserving _ _ _ _ (by decide)⟩

/-! ## The link processor's dedup contract -/

/-- What one `processSearchLink` run guarantees about the shared dedup map:
the map grows by exactly the pairs of the kept (persisted) and unfiltered
listings, in that order; every claimed URL was unseen before the run and is
owned by this link; the claimed URLs are pairwise distinct; every returned
enriched listing is one of the persisted kept listings (by URL) and carries
this link's number, as does every unfiltered listing. -/
theorem processSearchLink_spec (k : Listing → Bool)
    (fp : Except String (List (Except String (List Listing))))
    (o : Nat → Listing → Option DetailData) (arr : List Nat) (ln : Nat)
    (s0 : List (String × Nat)) :
    ∃ unfPairs,
      (processSearchLink k fp o arr ln s0).seen
        = s0 ++ (processSearchLink k fp o arr ln s0).savedRows ++ unfPairs ∧
      (((processSearchLink k fp o arr ln s0).savedRows ++ unfPairs).map Prod.fst).Nodup ∧
      (∀ p ∈ (processSearchLink k fp o arr ln s0).savedRows ++ unfPairs,
        seenLookup s0 p.1 = none ∧ p.2 = ln) ∧
      listingURLs (processSearchLink k fp o arr ln s0).unfiltered = unfPairs.map Prod.fst ∧
      (∀ l ∈ (processSearchLink k fp o arr ln s0).enriched,
        l.url ∈ (processSearchLink k fp o arr ln s0).savedRows.map Prod.fst ∧
        l.linkNumber = ln) ∧
      (∀ l ∈ (processSearchLink k fp o arr ln s0).unfiltered, l.linkNumber = ln) := by
  simp only [processSearchLink]
  split
  · exact ⟨[], by simp [listingURLs]⟩
  · split
    · exact ⟨[], by simp [listingURLs]⟩
    · split
      · exact ⟨[], by simp [listingURLs]⟩
      · next pages hne hnl =>
        set allL := pages.enum.flatMap (fun p =>
          match p.2 with
          | .error _ => []
          | .ok ls => ls.map (fun l =>
              { l with pageNumber := p.1 + 1, linkNumber := ln })) with hallL
        set pass1 := dedupFiltered ln (allL.filter k) s0 with hpass1
        set pass2 := dedupUnfiltered ln (pass1.2.map (fun l => l.url)) allL pass1.1 with hpass2
        obtain ⟨p11, p12, p13, p14⟩ := dedupFiltered_spec ln (allL.filter k) s0
        obtain ⟨p21, p22, p23, p24⟩ :=
          dedupUnfiltered_spec ln (pass1.2.map (fun l => l.url)) allL pass1.1
        rw [← hpass1] at p11 p12 p13 p14
        rw [← hpass2] at p21 p22 p23 p24
        split
        · next hk0 =>
          -- kept empty: nothing persisted, only unfiltered pairs claimed
          refine ⟨pass2.2.map (fun l => (l.url, ln)), ?_, ?_, ?_, ?_, ?_, ?_⟩
          · dsimp only
            rw [p21, p11, List.length_eq_zero.mp hk0]
            simp
          · dsimp only
            rw [List.nil_append]
            rw [List.map_map]
            exact p23
          · dsimp only
            intro p hp
            rw [List.nil_append, List.mem_map] at hp
            obtain ⟨l', hl', rfl⟩ := hp
            have h2 := p22 l' hl'
            rw [p11, List.length_eq_zero.mp hk0] at h2
            simp only [List.map_nil, List.append_nil] at h2
            exact ⟨h2, rfl⟩
          · dsimp only
            rw [listingURLs, List.map_map]
            rfl
          · dsimp only
            intro l hl
            simp at hl
          · exact p24
        · next hk0 =>
          refine ⟨pass2.2.map (fun l => (l.url, ln)), ?_, ?_, ?_, ?_, ?_, ?_⟩
          · dsimp only
            rw [p21, p11]
          · dsimp only
            rw [List.map_append, List.map_map, List.map_map]
            refine List.Nodup.append ?_ ?_ ?_
            · exact p13
            · exact p23
            · intro u hu1 hu2
              rw [List.mem_map] at hu1 hu2
              obtain ⟨l1, hl1, hu1⟩ := hu1
              obtain ⟨l2, hl2, hu2⟩ := hu2
              have h2 := p22 l2 hl2
              rw [p11] at h2
              have h3 := seenLookup_none_not_mem
                ((seenLookup_append_none_iff _ _ _).mp h2).2
              apply h3
              rw [List.mem_map]
              refine ⟨(l1.url, ln), List.mem_map_of_mem _ hl1, ?_⟩
              show l1.url = l2.url
              simp only [Function.comp] at hu1 hu2
              rw [show l1.url = u from hu1, show l2.url = u from hu2]
          · dsimp only
            intro p hp
            rw [List.mem_append] at hp
            rcases hp with hp | hp
            · rw [List.mem_map] at hp
              obtain ⟨l', hl', rfl⟩ := hp
              exact ⟨p12 l' hl', rfl⟩
            · rw [List.mem_map] at hp
              obtain ⟨l', hl', rfl⟩ := hp
              have h2 := p22 l' hl'
              rw [p11] at h2
              exact ⟨((seenLookup_append_none_iff _ _ _).mp h2).1, rfl⟩
          · dsimp only
            rw [listingURLs, List.map_map]
            rfl
          · dsimp only
            intro l hl
            obtain ⟨l', hl', hurl, hln⟩ := enrichListings_mem _ _ _ _ l hl
            constructor
            · rw [List.map_map]
              rw [hurl]
              exact List.mem_map_of_mem _ hl'
            · rw [hln]
              exact mem_parsePages_linkNumber pages ln l'
                (List.mem_filter.mp (p14 l' hl')).1
          · exact p24

/-! ## Loop iteration branch lemmas -/

theorem runStepWith_pause (req : Request) (item : QueueItem) (st : LoopState)
    (out : LinkProcOutput) (e : String) (herr : out.err = some e)
    (hcf : 1 ≤ st.consecutiveFailures) :
    isPausedStep (runStepWith req item st out) = true ∧
    (stOf (runStepWith req item st out)).queue = st.queue ∧
    (stOf (runStepWith req item st out)).consecutiveFailures = st.consecutiveFailures + 1 ∧
    (stOf (runStepWith req item st out)).events =
      st.events ++ backoffEvents item
        ++ [Event.notifyStartingLink item.link.linkNumber item.retryCount,
            Event.setLinkStatus item.link.id "in_progress" none]
        ++ out.savedRows.map (fun r => Event.saveListing r.1 r.2)
        ++ [Event.setLinkStatus item.link.id "pending" none,
            Event.setRequestStatus req.id "paused",
            Event.notifyPausedWithResume req.id] ∧
    (stOf (runStepWith req item st out)).db.reqStatus = st.db.reqStatus ∧
    getSearchLinkByID (stOf (runStepWith req item st out)).db item.link.id =
      (getSearchLinkByID st.db item.link.id).map
        (fun l => { l with status := "pending", lastError := none }) := by
  have h2 : 2 ≤ st.consecutiveFailures + 1 := by omega
  simp only [runStepWith, herr, if_pos h2]
  rw [tryUpdateSearchLinkStatus_allowed _ _ _ _ (by decide),
    tryUpdateSearchLinkStatus_allowed _ _ _ _ (by decide),
    tryUpdateRequestStatus_paused]
  refine ⟨rfl, rfl, rfl, rfl, rfl, ?_⟩
  simp only [stOf]
  rw [getSearchLinkByID_setStatus, getSearchLinkByID_listingRows,
    getSearchLinkByID_setStatus, Option.map_map]
  rfl

theorem runStepWith_requeue (req : Request) (item : QueueItem) (st : LoopState)
    (out : LinkProcOutput) (e : String) (l0 : SearchLink) (herr : out.err = some e)
    (hcf : st.consecutiveFailures = 0) (hrc : item.retryCount < 3)
    (hl0 : getSearchLinkByID st.db item.link.id = some l0) :
    isPausedStep (runStepWith req item st out) = false ∧
    (stOf (runStepWith req item st out)).queue =
      st.queue ++ [{ link := { l0 with
                       status := "pending", lastError := none,
                       retryCount := l0.retryCount + 1 },
                     retryCount := l0.retryCount + 1 }] ∧
    (stOf (runStepWith req item st out)).consecutiveFailures = 1 ∧
    (stOf (runStepWith req item st out)).linksFailed = st.linksFailed ∧
    (stOf (runStepWith req item st out)).events =
      st.events ++ backoffEvents item
        ++ [Event.notifyStartingLink item.link.linkNumber item.retryCount,
            Event.setLinkStatus item.link.id "in_progress" none]
        ++ out.savedRows.map (fun r => Event.saveListing r.1 r.2)
        ++ [Event.incrementRetry item.link.id,
            Event.notifyWillRetry item.link.linkNumber (item.retryCount + 1)] ∧
    (stOf (runStepWith req item st out)).db.reqStatus = st.db.reqStatus ∧
    getSearchLinkByID (stOf (runStepWith req item st out)).db item.link.id =
      some { l0 with
        status := "pending", lastError := none,
        retryCount := l0.retryCount + 1 } := by
  have hrow : getSearchLinkByID
      (incrementSearchLinkRetry
        { tryUpdateSearchLinkStatus st.db item.link.id "in_progress" none with
          listingRows := st.db.listingRows ++ out.savedRows } item.link.id) item.link.id =
      some { l0 with
        status := "pending", lastError := none,
        retryCount := l0.retryCount + 1 } := by
    rw [getSearchLinkByID_increment, getSearchLinkByID_listingRows,
      tryUpdateSearchLinkStatus_allowed _ _ _ _ (by decide),
      getSearchLinkByID_setStatus, hl0]
    rfl
  simp only [runStepWith, herr, hcf]
  rw [if_neg (by decide : ¬(2 ≤ 0 + 1)), if_pos hrc, hrow]
  refine ⟨rfl, rfl, rfl, rfl, rfl, ?_, ?_⟩
  · simp only [stOf, incrementSearchLinkRetry, updateLinkRow_reqStatus]
    rw [tryUpdateSearchLinkStatus_allowed _ _ _ _ (by decide)]
    rfl
  · simp only [stOf]
    exact hrow

theorem runStepWith_permfail (req : Request) (item : QueueItem) (st : LoopState)
    (out : LinkProcOutput) (e : String) (herr : out.err = some e)
    (hcf : st.consecutiveFailures = 0) (hrc : ¬(item.retryCount < 3)) :
    isPausedStep (runStepWith req item st out) = false ∧
    (stOf (runStepWith req item st out)).queue = st.queue ∧
    (stOf (runStepWith req item st out)).consecutiveFailures = 1 ∧
    (stOf (runStepWith req item st out)).linksFailed = st.linksFailed + 1 ∧
    (stOf (runStepWith req item st out)).events =
      st.events ++ backoffEvents item
        ++ [Event.notifyStartingLink item.link.linkNumber item.retryCount,
            Event.setLinkStatus item.link.id "in_progress" none]
        ++ out.savedRows.map (fun r => Event.saveListing r.1 r.2)
        ++ [Event.setLinkStatus item.link.id "failed" (some e),
            Event.notifyPermanentFail item.link.linkNumber] ∧
    (stOf (runStepWith req item st out)).db.reqStatus = st.db.reqStatus ∧
    getSearchLinkByID (stOf (runStepWith req item st out)).db item.link.id =
      (getSearchLinkByID st.db item.link.id).map
        (fun l => { l with status := "failed", lastError := some e }) := by
  simp only [runStepWith, herr, hcf]
  rw [if_neg (by decide : ¬(2 ≤ 0 + 1)), if_neg hrc,
    tryUpdateSearchLinkStatus_allowed _ _ _ _ (by decide),
    tryUpdateSearchLinkStatus_allowed _ _ _ _ (by decide)]
  refine ⟨rfl, rfl, rfl, rfl, rfl, rfl, ?_⟩
  simp only [stOf]
  rw [getSearchLinkByID_setStatus, getSearchLinkByID_listingRows,
    getSearchLinkByID_setStatus, Option.map_map]
  rfl

theorem runStepWith_success (req : Request) (item : QueueItem) (st : LoopState)
    (out : LinkProcOutput) (hok : out.err = none) :
    isPausedStep (runStepWith req item st out) = false ∧
    (stOf (runStepWith req item st out)).queue = st.queue ∧
    (stOf (runStepWith req item st out)).consecutiveFailures = 0 ∧
    (stOf (runStepWith req item st out)).linksSuccessful = st.linksSuccessful + 1 ∧
    (stOf (runStepWith req item st out)).allEnriched = st.allEnriched ++ out.enriched ∧
    (stOf (runStepWith req item st out)).allUnfiltered = st.allUnfiltered ++ out.unfiltered ∧
    (stOf (runStepWith req item st out)).seen = out.seen ∧
    (stOf (runStepWith req item st out)).events =
      st.events ++ backoffEvents item
        ++ [Event.notifyStartingLink item.link.linkNumber item.retryCount,
            Event.setLinkStatus item.link.id "in_progress" none]
        ++ out.savedRows.map (fun r => Event.saveListing r.1 r.2)
        ++ [Event.setLinkStatus item.link.id "done" none,
            Event.setLinkListingsCount item.link.id out.enriched.length,
            Event.appendSheet st.sheetName (out.enriched ++ out.unfiltered),
            Event.notifyLinkDone item.link.linkNumber out.totalListings out.enriched.length] ∧
    (stOf (runStepWith req item st out)).db.reqStatus = st.db.reqStatus ∧
    (stOf (runStepWith req item st out)).db.listingRows =
      st.db.listingRows ++ out.savedRows ∧
    getSearchLinkByID (stOf (runStepWith req item st out)).db item.link.id =
      (getSearchLinkByID st.db item.link.id).map
        (fun l => { l with
          status := "done", lastError := none,
          listingsCount := out.enriched.length }) := by
  simp only [runStepWith, hok]
  rw [tryUpdateSearchLinkStatus_allowed _ _ _ _ (by decide),
    tryUpdateSearchLinkStatus_allowed _ _ _ _ (by decide)]
  refine ⟨rfl, rfl, rfl, rfl, rfl, rfl, rfl, rfl, ?_, ?_, ?_⟩
  · simp only [stOf, updateSearchLinkListingsCount, updateLinkRow_reqStatus]
  · simp only [stOf, updateSearchLinkListingsCount, updateLinkRow_listingRows]
  · simp only [stOf]
    rw [getSearchLinkByID_setCount, getSearchLinkByID_setStatus,
      getSearchLinkByID_listingRows, getSearchLinkByID_setStatus,
      Option.map_map, Option.map_map]
    rfl

/-! ## Generic step facts (all branches) -/

theorem tryUSLS_reqStatus (db : DBState) (i : Nat) (st : String) (e : Option String) :
    (tryUpdateSearchLinkStatus db i st e).reqStatus = db.reqStatus := by
  unfold tryUpdateSearchLinkStatus updateSearchLinkStatus
  by_cases h : searchLinkStatusAllowed st = true
  · rw [if_pos h]
    rfl
  · rw [if_neg h]

theorem tryUSLS_sheetName (db : DBState) (i : Nat) (st : String) (e : Option String) :
    (tryUpdateSearchLinkStatus db i st e).sheetName = db.sheetName := by
  unfold tryUpdateSearchLinkStatus updateSearchLinkStatus
  by_cases h : searchLinkStatusAllowed st = true
  · rw [if_pos h]
    rfl
  · rw [if_neg h]

theorem tryURS_sheetName (db : DBState) (st : String) :
    (tryUpdateRequestStatus db st).sheetName = db.sheetName := by
  unfold tryUpdateRequestStatus updateRequestStatus
  by_cases h : requestStatusAllowed st = true
  · rw [if_pos h]
  · rw [if_neg h]

theorem getSearchLinkByID_id {db : DBState} {i : Nat} {l : SearchLink}
    (h : getSearchLinkByID db i = some l) : l.id = i := by
  unfold getSearchLinkByID at h
  exact of_decide_eq_true
    (@List.find?_some _ (fun l => decide (l.id = i)) l db.links h)

theorem runStep_eq (env : Env) (req : Request) (item : QueueItem) (st : LoopState) :
    runStep env req item st = runStepWith req item st
      (processSearchLink env.keep (env.fetchParse st.stepIdx)
        (env.detailOracle st.stepIdx) (env.arrival st.stepIdx)
        item.link.linkNumber st.seen) := rfl

theorem runStepWith_reqStatus (req : Request) (item : QueueItem) (st : LoopState)
    (out : LinkProcOutput) :
    (stOf (runStepWith req item st out)).db.reqStatus = st.db.reqStatus := by
  simp only [runStepWith]
  split
  · split
    · simp [stOf, tryUpdateRequestStatus_paused, tryUSLS_reqStatus]
    · split
      · split <;>
          simp [stOf, incrementSearchLinkRetry, updateLinkRow_reqStatus, tryUSLS_reqStatus]
      · simp [stOf, tryUSLS_reqStatus]
  · simp [stOf, updateSearchLinkListingsCount, updateLinkRow_reqStatus, tryUSLS_reqStatus]

theorem runStepWith_sheetName (req : Request) (item : QueueItem) (st : LoopState)
    (out : LinkProcOutput) :
    (stOf (runStepWith req item st out)).sheetName = st.sheetName := by
  simp only [runStepWith]
  split
  · split
    · simp [stOf]
    · split
      · split <;> simp [stOf]
      · simp [stOf]
  · simp [stOf]

theorem backoffEvents_scope (item : QueueItem) (S : List Nat) (sh : String) :
    ∀ ev ∈ backoffEvents item, EventScope S sh ev := by
  unfold backoffEvents
  split
  · intro ev hev
    rcases List.mem_cons.mp hev with rfl | hev
    · trivial
    · rcases List.mem_cons.mp hev with rfl | hev
      · trivial
      · simp at hev
  · intro ev hev
    simp at hev

theorem saveEvents_scope (rows : List (String × Nat)) (S : List Nat) (sh : String) :
    ∀ ev ∈ rows.map (fun r => Event.saveListing r.1 r.2), EventScope S sh ev := by
  intro ev hev
  rw [List.mem_map] at hev
  obtain ⟨r, _, rfl⟩ := hev
  trivial

theorem scope_app {S : List Nat} {sh : String} {l1 l2 : List Event}
    (h1 : ∀ ev ∈ l1, EventScope S sh ev) (h2 : ∀ ev ∈ l2, EventScope S sh ev) :
    ∀ ev ∈ l1 ++ l2, EventScope S sh ev := by
  intro ev hev
  rcases List.mem_append.mp hev with hev | hev
  · exact h1 ev hev
  · exact h2 ev hev

theorem scope_cons {S : List Nat} {sh : String} {e : Event} {l : List Event}
    (he : EventScope S sh e) (h : ∀ ev ∈ l, EventScope S sh ev) :
    ∀ ev ∈ e :: l, EventScope S sh ev := by
  intro ev hev
  rcases List.mem_cons.mp hev with rfl | hev
  · exact he
  · exact h ev hev

theorem scope_nil {S : List Nat} {sh : String} :
    ∀ ev ∈ ([] : List Event), EventScope S sh ev := by
  intro ev hev
  simp at hev

theorem runStepWith_events (req : Request) (item : QueueItem) (st : LoopState)
    (out : LinkProcOutput) :
    ∃ tail, (stOf (runStepWith req item st out)).events = st.events ++ tail ∧
      ∀ ev ∈ tail, EventScope [item.link.id] st.sheetName ev := by
  have hself : item.link.id ∈ [item.link.id] := List.mem_singleton_self _
  have hstart : EventScope [item.link.id] st.sheetName
      (Event.notifyStartingLink item.link.linkNumber item.retryCount) := trivial
  have hinpr : EventScope [item.link.id] st.sheetName
      (Event.setLinkStatus item.link.id "in_progress" none) := hself
  simp only [runStepWith]
  split
  · split
    · refine ⟨_, by simp only [stOf, List.append_assoc, List.cons_append,
        List.nil_append]; rfl, ?_⟩
      refine scope_app (backoffEvents_scope item _ _) (scope_cons hstart
        (scope_cons hinpr (scope_app (saveEvents_scope _ _ _) ?_)))
      intro ev hev
      rcases List.mem_cons.mp hev with rfl | hev
      · exact hself
      · rcases List.mem_cons.mp hev with rfl | hev
        · trivial
        · rcases List.mem_cons.mp hev with rfl | hev
          · trivial
          · simp at hev
    · split
      · split
        all_goals
          refine ⟨_, by simp only [stOf, List.append_assoc, List.cons_append,
            List.nil_append]; rfl, ?_⟩
          refine scope_app (backoffEvents_scope item _ _) (scope_cons hstart
            (scope_cons hinpr (scope_app (saveEvents_scope _ _ _) ?_)))
          intro ev hev
          rcases List.mem_cons.mp hev with rfl | hev
          · exact hself
          · rcases List.mem_cons.mp hev with rfl | hev
            · trivial
            · simp at hev
      · refine ⟨_, by simp only [stOf, List.append_assoc, List.cons_append,
          List.nil_append]; rfl, ?_⟩
        refine scope_app (backoffEvents_scope item _ _) (scope_cons hstart
          (scope_cons hinpr (scope_app (saveEvents_scope _ _ _) ?_)))
        intro ev hev
        rcases List.mem_cons.mp hev with rfl | hev
        · exact hself
        · rcases List.mem_cons.mp hev with rfl | hev
          · trivial
          · simp at hev
  · refine ⟨_, by simp only [stOf, List.append_assoc, List.cons_append,
      List.nil_append]; rfl, ?_⟩
    refine scope_app (backoffEvents_scope item _ _) (scope_cons hstart
      (scope_cons hinpr (scope_app (saveEvents_scope _ _ _) ?_)))
    intro ev hev
    rcases List.mem_cons.mp hev with rfl | hev
    · exact hself
    · rcases List.mem_cons.mp hev with rfl | hev
      · exact hself
      · rcases List.mem_cons.mp hev with rfl | hev
        · rfl
        · rcases List.mem_cons.mp hev with rfl | hev
          · trivial
          · simp at hev

theorem runStepWith_queue_sub (req : Request) (item : QueueItem) (st : LoopState)
    (out : LinkProcOutput) :
    ∀ q ∈ (stOf (runStepWith req item st out)).queue,
      q ∈ st.queue ∨ q.link.id = item.link.id := by
  simp only [runStepWith]
  split
  · split
    · intro q hq
      exact Or.inl hq
    · split
      · split
        · next updated hupd =>
          intro q hq
          rcases List.mem_append.mp hq with hq | hq
          · exact Or.inl hq
          · rcases List.mem_cons.mp hq with rfl | hq
            · exact Or.inr (getSearchLinkByID_id hupd)
            · simp at hq
        · intro q hq
          rcases List.mem_append.mp hq with hq | hq
          · exact Or.inl hq
          · rcases List.mem_cons.mp hq with rfl | hq
            · exact Or.inr rfl
            · simp at hq
      · intro q hq
        exact Or.inl hq
  · intro q hq
    exact Or.inl hq

/-! ## Queue-level invariants -/

theorem tryUSLS_listingRows (db : DBState) (i : Nat) (st : String) (e : Option String) :
    (tryUpdateSearchLinkStatus db i st e).listingRows = db.listingRows := by
  unfold tryUpdateSearchLinkStatus updateSearchLinkStatus
  by_cases h : searchLinkStatusAllowed st = true
  · rw [if_pos h]
    rfl
  · rw [if_neg h]

theorem tryURS_listingRows (db : DBState) (st : String) :
    (tryUpdateRequestStatus db st).listingRows = db.listingRows := by
  unfold tryUpdateRequestStatus updateRequestStatus
  by_cases h : requestStatusAllowed st = true
  · rw [if_pos h]
  · rw [if_neg h]

theorem runStepWith_dedup_fields (req : Request) (item : QueueItem) (st : LoopState)
    (out : LinkProcOutput) :
    (stOf (runStepWith req item st out)).seen = out.seen ∧
    (stOf (runStepWith req item st out)).db.listingRows = st.db.listingRows ++ out.savedRows ∧
    (((stOf (runStepWith req item st out)).allEnriched = st.allEnriched ∧
      (stOf (runStepWith req item st out)).allUnfiltered = st.allUnfiltered) ∨
     ((stOf (runStepWith req item st out)).allEnriched = st.allEnriched ++ out.enriched ∧
      (stOf (runStepWith req item st out)).allUnfiltered = st.allUnfiltered ++ out.unfiltered)) := by
  simp only [runStepWith]
  split
  · split
    · refine ⟨rfl, ?_, Or.inl ⟨rfl, rfl⟩⟩
      simp [stOf, tryUpdateRequestStatus_paused, tryUSLS_listingRows]
    · split
      · split
        all_goals
          refine ⟨rfl, ?_, Or.inl ⟨rfl, rfl⟩⟩
          simp [stOf, incrementSearchLinkRetry, updateLinkRow_listingRows]
      · refine ⟨rfl, ?_, Or.inl ⟨rfl, rfl⟩⟩
        simp [stOf, tryUSLS_listingRows]
  · refine ⟨rfl, ?_, Or.inr ⟨rfl, rfl⟩⟩
    simp [stOf, updateSearchLinkListingsCount, updateLinkRow_listingRows, tryUSLS_listingRows]

theorem runStep_dedup (env : Env) (req : Request) (item : QueueItem) (st : LoopState)
    (base rows0 : List (String × Nat)) (hF : DedupFresh base rows0 st) :
    DedupFresh base rows0 (stOf (runStep env req item st)) ∧
    (DedupNodup rows0 st → DedupNodup rows0 (stOf (runStep env req item st))) := by
  obtain ⟨⟨d, hd⟩, ⟨newRows, hrows, hnewprop⟩, hemit⟩ := hF
  obtain ⟨unfPairs, hseen, hnd, hfresh, hunf, henr, _⟩ :=
    processSearchLink_spec env.keep (env.fetchParse st.stepIdx)
      (env.detailOracle st.stepIdx) (env.arrival st.stepIdx) item.link.linkNumber st.seen
  rw [runStep_eq]
  obtain ⟨hs, hr, hor⟩ := runStepWith_dedup_fields req item st
    (processSearchLink env.keep (env.fetchParse st.stepIdx)
      (env.detailOracle st.stepIdx) (env.arrival st.stepIdx) item.link.linkNumber st.seen)
  set out := processSearchLink env.keep (env.fetchParse st.stepIdx)
    (env.detailOracle st.stepIdx) (env.arrival st.stepIdx) item.link.linkNumber st.seen with hout
  have hseen' : (stOf (runStepWith req item st out)).seen
      = st.seen ++ (out.savedRows ++ unfPairs) := by
    rw [hs, hseen, List.append_assoc]
  have hfresh' : ∀ p ∈ out.savedRows ++ unfPairs, seenLookup st.seen p.1 = none :=
    fun p hp => (hfresh p hp).1
  have hbasefresh : ∀ p ∈ out.savedRows ++ unfPairs, seenLookup base p.1 = none := by
    intro p hp
    have := hfresh' p hp
    rw [hd] at this
    exact ((seenLookup_append_none_iff _ _ _).mp this).1
  constructor
  · refine ⟨⟨d ++ (out.savedRows ++ unfPairs), by rw [hseen', hd, List.append_assoc]⟩,
      ⟨newRows ++ out.savedRows, by rw [hr, hrows, List.append_assoc], ?_⟩, ?_⟩
    · intro p hp
      rcases List.mem_append.mp hp with hp | hp
      · obtain ⟨hmem, hbase⟩ := hnewprop p hp
        refine ⟨?_, hbase⟩
        rw [hseen']
        exact List.mem_append_left _ hmem
      · refine ⟨?_, hbasefresh p (List.mem_append_left _ hp)⟩
        rw [hseen']
        exact List.mem_append_right _ (List.mem_append_left _ hp)
    · intro l hl
      rcases hor with ⟨he, hu⟩ | ⟨he, hu⟩
      · rw [he, hu] at hl
        exact hemit l hl
      · rw [he, hu] at hl
        rcases List.mem_append.mp hl with hl | hl
        · rcases List.mem_append.mp hl with hl | hl
          · exact hemit l (List.mem_append_left _ hl)
          · -- a newly enriched listing: its URL is among the persisted rows
            obtain ⟨hmem, _⟩ := henr l hl
            rw [List.mem_map] at hmem
            obtain ⟨p, hp, hpu⟩ := hmem
            rw [← hpu]
            exact hbasefresh p (List.mem_append_left _ hp)
        · rcases List.mem_append.mp hl with hl | hl
          · exact hemit l (List.mem_append_right _ hl)
          · -- a newly kept unfiltered listing
            have : l.url ∈ unfPairs.map Prod.fst := by
              rw [← hunf, listingURLs]
              exact List.mem_map_of_mem _ hl
            rw [List.mem_map] at this
            obtain ⟨p, hp, hpu⟩ := this
            rw [← hpu]
            exact hbasefresh p (List.mem_append_right _ hp)
  · rintro ⟨hsnd, ⟨newRows2, hrows2, hrnd⟩⟩
    have hnewRows2 : newRows2 = newRows := by
      have := hrows2.symm.trans hrows
      exact List.append_cancel_left this
    subst hnewRows2
    constructor
    · rw [hseen', seenURLs, List.map_append]
      refine List.Nodup.append hsnd hnd ?_
      intro u hu1 hu2
      rw [List.mem_map] at hu1 hu2
      obtain ⟨p1, hp1, hq1⟩ := hu1
      obtain ⟨p2, hp2, hq2⟩ := hu2
      have := hfresh' p2 hp2
      apply seenLookup_none_not_mem this
      rw [hq2, ← hq1]
      exact List.mem_map_of_mem _ hp1
    · refine ⟨newRows2 ++ out.savedRows, by rw [hr, hrows2, List.append_assoc], ?_⟩
      rw [List.map_append]
      refine List.Nodup.append hrnd ?_ ?_
      · have := (List.nodup_append.mp (by rw [← List.map_append]; exact hnd)).1
        exact this
      · intro u hu1 hu2
        rw [List.mem_map] at hu1 hu2
        obtain ⟨p1, hp1, hq1⟩ := hu1
        obtain ⟨p2, hp2, hq2⟩ := hu2
        have hfr := hfresh' p2 (List.mem_append_left _ hp2)
        apply seenLookup_none_not_mem hfr
        have hm1 : p1.1 ∈ st.seen.map Prod.fst :=
          List.mem_map_of_mem Prod.fst (hnewprop p1 hp1).1
        rw [hq2, ← hq1]
        exact hm1

theorem runStep_reqStatus (env : Env) (req : Request) (item : QueueItem) (st : LoopState) :
    (stOf (runStep env req item st)).db.reqStatus = st.db.reqStatus := by
  rw [runStep_eq]
  exact runStepWith_reqStatus req item st _

theorem runStep_sheetName (env : Env) (req : Request) (item : QueueItem) (st : LoopState) :
    (stOf (runStep env req item st)).sheetName = st.sheetName := by
  rw [runStep_eq]
  exact runStepWith_sheetName req item st _

theorem runStep_events (env : Env) (req : Request) (item : QueueItem) (st : LoopState) :
    ∃ tail, (stOf (runStep env req item st)).events = st.events ++ tail ∧
      ∀ ev ∈ tail, EventScope [item.link.id] st.sheetName ev := by
  rw [runStep_eq]
  exact runStepWith_events req item st _

theorem runStep_queue_sub (env : Env) (req : Request) (item : QueueItem) (st : LoopState) :
    ∀ q ∈ (stOf (runStep env req item st)).queue,
      q ∈ st.queue ∨ q.link.id = item.link.id := by
  rw [runStep_eq]
  exact runStepWith_queue_sub req item st _

theorem EventScope_mono {i : Nat} {S : List Nat} {sh : String} (hid : i ∈ S) :
    ∀ ev, EventScope [i] sh ev → EventScope S sh ev := by
  intro ev h
  cases ev <;> try trivial
  case setLinkStatus j _ _ =>
    have : j = i := by simpa [EventScope] using h
    rw [this]
    exact hid
  case incrementRetry j =>
    have : j = i := by simpa [EventScope] using h
    rw [this]
    exact hid
  case setLinkListingsCount j _ =>
    have : j = i := by simpa [EventScope] using h
    rw [this]
    exact hid

theorem runQueue_succ_nil (env : Env) (req : Request) (n : Nat) (st : LoopState)
    (h : st.queue = []) :
    runQueue env req (n + 1) st = { state := st, pausedFlag := false, outOfFuel := false } := by
  simp only [runQueue, h]

theorem runQueue_succ_cons (env : Env) (req : Request) (n : Nat) (st : LoopState)
    (item : QueueItem) (rest : List QueueItem) (h : st.queue = item :: rest) :
    runQueue env req (n + 1) st =
      match runStep env req item { st with queue := rest } with
      | .pausedReturn s => { state := s, pausedFlag := true, outOfFuel := false }
      | .continueLoop s => runQueue env req n s := by
  simp only [runQueue, h]

theorem runQueue_reqStatus (env : Env) (req : Request) :
    ∀ (fuel : Nat) (st : LoopState),
      (runQueue env req fuel st).state.db.reqStatus = st.db.reqStatus := by
  intro fuel
  induction fuel with
  | zero => intro st; rfl
  | succ n ih =>
    intro st
    cases hq : st.queue with
    | nil => rw [runQueue_succ_nil env req n st hq]
    | cons item rest =>
      rw [runQueue_succ_cons env req n st item rest hq]
      rcases hstep : runStep env req item { st with queue := rest } with s | s
      · show s.db.reqStatus = st.db.reqStatus
        have h1 := runStep_reqStatus env req item { st with queue := rest }
        rw [hstep] at h1
        exact h1
      · show (runQueue env req n s).state.db.reqStatus = st.db.reqStatus
        rw [ih s]
        have h1 := runStep_reqStatus env req item { st with queue := rest }
        rw [hstep] at h1
        exact h1

theorem runQueue_sheetName (env : Env) (req : Request) :
    ∀ (fuel : Nat) (st : LoopState),
      (runQueue env req fuel st).state.sheetName = st.sheetName := by
  intro fuel
  induction fuel with
  | zero => intro st; rfl
  | succ n ih =>
    intro st
    cases hq : st.queue with
    | nil => rw [runQueue_succ_nil env req n st hq]
    | cons item rest =>
      rw [runQueue_succ_cons env req n st item rest hq]
      rcases hstep : runStep env req item { st with queue := rest } with s | s
      · show s.sheetName = st.sheetName
        have h1 := runStep_sheetName env req item { st with queue := rest }
        rw [hstep] at h1
        exact h1
      · show (runQueue env req n s).state.sheetName = st.sheetName
        rw [ih s]
        have h1 := runStep_sheetName env req item { st with queue := rest }
        rw [hstep] at h1
        exact h1

theorem runQueue_events (env : Env) (req : Request) (S : List Nat) (sh : String) :
    ∀ (fuel : Nat) (st : LoopState),
      (∀ q ∈ st.queue, q.link.id ∈ S) → st.sheetName = sh →
      ∃ tail, (runQueue env req fuel st).state.events = st.events ++ tail ∧
        ∀ ev ∈ tail, EventScope S sh ev := by
  intro fuel
  induction fuel with
  | zero =>
    intro st _ _
    exact ⟨[], by simp [runQueue], by simp⟩
  | succ n ih =>
    intro st hS hsh
    cases hq : st.queue with
    | nil =>
      rw [runQueue_succ_nil env req n st hq]
      exact ⟨[], by simp, by simp⟩
    | cons item rest =>
      have hid : item.link.id ∈ S := hS item (hq ▸ List.mem_cons_self item rest)
      rw [runQueue_succ_cons env req n st item rest hq]
      obtain ⟨tail1, ht1, hs1⟩ := runStep_events env req item { st with queue := rest }
      have hs1' : ∀ ev ∈ tail1, EventScope S sh ev := by
        intro ev hev
        exact EventScope_mono hid ev (by rw [← hsh]; exact hs1 ev hev)
      rcases hstep : runStep env req item { st with queue := rest } with s | s
      · rw [hstep] at ht1
        exact ⟨tail1, ht1, hs1'⟩
      · rw [hstep] at ht1
        have hqs : ∀ q ∈ s.queue, q.link.id ∈ S := by
          intro q hqmem
          have := runStep_queue_sub env req item { st with queue := rest } q
          rw [hstep] at this
          rcases this hqmem with hmem | hid'
          · exact hS q (by rw [hq]; exact List.mem_cons_of_mem _ hmem)
          · rw [hid']
            exact hid
        have hsh' : s.sheetName = sh := by
          have h1 := runStep_sheetName env req item { st with queue := rest }
          rw [hstep] at h1
          exact h1.trans hsh
        obtain ⟨tail2, ht2, hs2⟩ := ih s hqs hsh'
        have ht1' : s.events = st.events ++ tail1 := ht1
        refine ⟨tail1 ++ tail2, ?_, ?_⟩
        · show (runQueue env req n s).state.events = st.events ++ (tail1 ++ tail2)
          rw [ht2, ht1', List.append_assoc]
        · intro ev hev
          rcases List.mem_append.mp hev with hev | hev
          · exact hs1' ev hev
          · exact hs2 ev hev

theorem runQueue_dedup (env : Env) (req : Request) (base rows0 : List (String × Nat)) :
    ∀ (fuel : Nat) (st : LoopState), DedupFresh base rows0 st →
      DedupFresh base rows0 (runQueue env req fuel st).state ∧
      (DedupNodup rows0 st → DedupNodup rows0 (runQueue env req fuel st).state) := by
  intro fuel
  induction fuel with
  | zero =>
    intro st hF
    exact ⟨hF, fun h => h⟩
  | succ n ih =>
    intro st hF
    cases hq : st.queue with
    | nil =>
      rw [runQueue_succ_nil env req n st hq]
      exact ⟨hF, fun h => h⟩
    | cons item rest =>
      rw [runQueue_succ_cons env req n st item rest hq]
      have hF' : DedupFresh base rows0 { st with queue := rest } := hF
      have hstepd := runStep_dedup env req item { st with queue := rest } base rows0 hF'
      rcases hstep : runStep env req item { st with queue := rest } with s | s
      · rw [hstep] at hstepd
        exact ⟨hstepd.1, fun h => hstepd.2 h⟩
      · rw [hstep] at hstepd
        have := ih s hstepd.1
        exact ⟨this.1, fun h => this.2 (hstepd.2 h)⟩

/-! ## Retry-cap and queue/store synchronisation -/

theorem tryURS_links (db : DBState) (st : String) :
    (tryUpdateRequestStatus db st).links = db.links := by
  unfold tryUpdateRequestStatus updateRequestStatus
  by_cases h : requestStatusAllowed st = true
  · rw [if_pos h]
  · rw [if_neg h]

theorem updateLinkRow_ids (db : DBState) (i : Nat) (f : SearchLink → SearchLink)
    (hf : ∀ l, (f l).id = l.id) :
    (updateLinkRow db i f).links.map (fun l => l.id) = db.links.map (fun l => l.id) := by
  unfold updateLinkRow
  simp only
  rw [List.map_map]
  apply List.map_congr_left
  intro l _
  simp only [Function.comp]
  split
  · rw [hf]
  · rfl

theorem find?_id_unique {ls : List SearchLink} {l : SearchLink} {i : Nat}
    (hnd : (ls.map (fun l => l.id)).Nodup) (hl : l ∈ ls) (hid : l.id = i) :
    ls.find? (fun l => decide (l.id = i)) = some l := by
  induction ls with
  | nil => simp at hl
  | cons h t ih =>
    by_cases hhi : h.id = i
    · rw [List.find?_cons_of_pos _ (by simp [hhi])]
      rcases List.mem_cons.mp hl with rfl | hlt
      · rfl
      · exfalso
        rw [List.map_cons] at hnd
        exact (List.nodup_cons.mp hnd).1
          (by rw [hhi, ← hid]; exact List.mem_map_of_mem _ hlt)
    · rw [List.find?_cons_of_neg _ (by simp [hhi])]
      rcases List.mem_cons.mp hl with rfl | hlt
      · exact absurd hid hhi
      · exact ih (by rw [List.map_cons] at hnd; exact (List.nodup_cons.mp hnd).2) hlt

theorem getSearchLinkByID_unique {db : DBState} {l : SearchLink} {i : Nat}
    (hnd : (db.links.map (fun l => l.id)).Nodup) (hl : l ∈ db.links) (hid : l.id = i) :
    getSearchLinkByID db i = some l := by
  unfold getSearchLinkByID
  exact find?_id_unique hnd hl hid

theorem RetryCapOK_update (db : DBState) (i : Nat) (f : SearchLink → SearchLink)
    (hcap : RetryCapOK db) (hf : ∀ l ∈ db.links, l.id = i → (f l).retryCount ≤ 3) :
    RetryCapOK (updateLinkRow db i f) := by
  intro l hl
  unfold updateLinkRow at hl
  simp only at hl
  rw [List.mem_map] at hl
  obtain ⟨l0, hl0, rfl⟩ := hl
  split
  · next h => exact hf l0 hl0 h
  · exact hcap l0 hl0

theorem RetryCapOK_update_same (db : DBState) (i : Nat) (f : SearchLink → SearchLink)
    (hcap : RetryCapOK db) (hf : ∀ l, (f l).retryCount = l.retryCount) :
    RetryCapOK (updateLinkRow db i f) :=
  RetryCapOK_update db i f hcap (fun l hl _ => by rw [hf]; exact hcap l hl)

theorem QueueSync_tail_of (db db' : DBState) (item : QueueItem) (q : List QueueItem)
    (hs : QueueSync db (item :: q))
    (hids : db'.links.map (fun l => l.id) = db.links.map (fun l => l.id))
    (hget : ∀ j, j ≠ item.link.id → getSearchLinkByID db' j = getSearchLinkByID db j) :
    QueueSync db' q := by
  obtain ⟨h1, h2, h3⟩ := hs
  have h2' : (item.link.id :: q.map (fun it => it.link.id)).Nodup := h2
  refine ⟨by rw [hids]; exact h1, (List.nodup_cons.mp h2').2, ?_⟩
  intro it hit
  have hne : it.link.id ≠ item.link.id := by
    intro he
    exact (List.nodup_cons.mp h2').1 (he ▸ List.mem_map_of_mem _ hit)
  rw [hget _ hne]
  exact h3 it (List.mem_cons_of_mem _ hit)

theorem getSearchLinkByID_increment_ne (db : DBState) (i j : Nat) (h : i ≠ j) :
    getSearchLinkByID (incrementSearchLinkRetry db i) j = getSearchLinkByID db j := by
  unfold incrementSearchLinkRetry
  rw [getSearchLinkByID_updateLinkRow db i j
    (fun l => { l with retryCount := l.retryCount + 1, status := "pending" })
    (fun l => rfl), if_neg h]

theorem getSearchLinkByID_setCount_ne (db : DBState) (i c j : Nat) (h : i ≠ j) :
    getSearchLinkByID (updateSearchLinkListingsCount db i c) j = getSearchLinkByID db j := by
  unfold updateSearchLinkListingsCount
  rw [getSearchLinkByID_updateLinkRow db i j
    (fun l => { l with listingsCount := c }) (fun l => rfl), if_neg h]

theorem setStatus_ids (db : DBState) (i : Nat) (st : String) (e : Option String) :
    (updateLinkRow db i (fun l => { l with status := st, lastError := e })).links.map
      (fun l => l.id) = db.links.map (fun l => l.id) :=
  updateLinkRow_ids db i _ (fun _ => rfl)

theorem increment_ids (db : DBState) (i : Nat) :
    (incrementSearchLinkRetry db i).links.map (fun l => l.id)
      = db.links.map (fun l => l.id) :=
  updateLinkRow_ids db i _ (fun l => rfl)

theorem setCount_ids (db : DBState) (i c : Nat) :
    (updateSearchLinkListingsCount db i c).links.map (fun l => l.id)
      = db.links.map (fun l => l.id) :=
  updateLinkRow_ids db i _ (fun l => rfl)

theorem cap_of_unique_row (db : DBState) (i : Nat) (lk : SearchLink)
    (hnd : (db.links.map (fun l => l.id)).Nodup)
    (hget : getSearchLinkByID db i = some lk) (hrc : lk.retryCount < 3) :
    ∀ l ∈ db.links, l.id = i → l.retryCount + 1 ≤ 3 := by
  intro l hl hli
  have h1 := getSearchLinkByID_unique hnd hl hli
  rw [hget] at h1
  cases h1
  omega

/-- In every branch the step leaves the set of row ids unchanged. -/
theorem runStepWith_ids (req : Request) (item : QueueItem) (st : LoopState)
    (out : LinkProcOutput) :
    (stOf (runStepWith req item st out)).db.links.map (fun l => l.id)
      = st.db.links.map (fun l => l.id) := by
  cases herr : out.err with
  | none =>
    simp only [runStepWith, herr]
    rw [tryUpdateSearchLinkStatus_allowed _ _ _ _ (by decide),
      tryUpdateSearchLinkStatus_allowed _ _ _ _ (by decide)]
    simp only [stOf]
    rw [setCount_ids, setStatus_ids]
    exact setStatus_ids st.db item.link.id "in_progress" none
  | some e =>
    simp only [runStepWith, herr]
    by_cases hcf : 2 ≤ st.consecutiveFailures + 1
    · rw [if_pos hcf, tryUpdateSearchLinkStatus_allowed _ _ _ _ (by decide),
        tryUpdateSearchLinkStatus_allowed _ _ _ _ (by decide),
        tryUpdateRequestStatus_paused]
      simp only [stOf]
      rw [setStatus_ids]
      exact setStatus_ids st.db item.link.id "in_progress" none
    · rw [if_neg hcf]
      by_cases hrc : item.retryCount < 3
      · rw [if_pos hrc, tryUpdateSearchLinkStatus_allowed _ _ _ _ (by decide)]
        simp only [stOf]
        rw [increment_ids]
        exact setStatus_ids st.db item.link.id "in_progress" none
      · rw [if_neg hrc, tryUpdateSearchLinkStatus_allowed _ _ _ _ (by decide),
          tryUpdateSearchLinkStatus_allowed _ _ _ _ (by decide)]
        simp only [stOf]
        rw [setStatus_ids]
        exact setStatus_ids st.db item.link.id "in_progress" none

/-- In every branch the step only touches the row of the popped link. -/
theorem runStepWith_get_ne (req : Request) (item : QueueItem) (st : LoopState)
    (out : LinkProcOutput) (j : Nat) (hj : j ≠ item.link.id) :
    getSearchLinkByID (stOf (runStepWith req item st out)).db j
      = getSearchLinkByID st.db j := by
  cases herr : out.err with
  | none =>
    simp only [runStepWith, herr]
    rw [tryUpdateSearchLinkStatus_allowed _ _ _ _ (by decide),
      tryUpdateSearchLinkStatus_allowed _ _ _ _ (by decide)]
    simp only [stOf]
    rw [getSearchLinkByID_setCount_ne _ _ _ _ (Ne.symm hj),
      getSearchLinkByID_setStatus_ne _ _ _ _ _ (Ne.symm hj),
      getSearchLinkByID_listingRows,
      getSearchLinkByID_setStatus_ne _ _ _ _ _ (Ne.symm hj)]
  | some e =>
    simp only [runStepWith, herr]
    by_cases hcf : 2 ≤ st.consecutiveFailures + 1
    · rw [if_pos hcf, tryUpdateSearchLinkStatus_allowed _ _ _ _ (by decide),
        tryUpdateSearchLinkStatus_allowed _ _ _ _ (by decide),
        tryUpdateRequestStatus_paused]
      simp only [stOf]
      rw [getSearchLinkByID_setStatus_ne _ _ _ _ _ (Ne.symm hj),
        getSearchLinkByID_listingRows,
        getSearchLinkByID_setStatus_ne _ _ _ _ _ (Ne.symm hj)]
    · rw [if_neg hcf]
      by_cases hrc : item.retryCount < 3
      · rw [if_pos hrc, tryUpdateSearchLinkStatus_allowed _ _ _ _ (by decide)]
        simp only [stOf]
        rw [getSearchLinkByID_increment_ne _ _ _ (Ne.symm hj),
          getSearchLinkByID_listingRows,
          getSearchLinkByID_setStatus_ne _ _ _ _ _ (Ne.symm hj)]
      · rw [if_neg hrc, tryUpdateSearchLinkStatus_allowed _ _ _ _ (by decide),
          tryUpdateSearchLinkStatus_allowed _ _ _ _ (by decide)]
        simp only [stOf]
        rw [getSearchLinkByID_setStatus_ne _ _ _ _ _ (Ne.symm hj),
          getSearchLinkByID_listingRows,
          getSearchLinkByID_setStatus_ne _ _ _ _ _ (Ne.symm hj)]

/-- In every branch the step keeps all stored retry counts within the cap,
provided the popped item mirrors its stored row and that row is within the
cap. The only branch that increments is guarded by `item.retryCount < 3`. -/
theorem runStepWith_cap (req : Request) (item : QueueItem) (st : LoopState)
    (out : LinkProcOutput)
    (hnd : (st.db.links.map (fun l => l.id)).Nodup)
    (hl0 : getSearchLinkByID st.db item.link.id = some item.link)
    (hrc0 : item.retryCount = item.link.retryCount)
    (hcap : RetryCapOK st.db) :
    RetryCapOK (stOf (runStepWith req item st out)).db := by
  have hcapB : RetryCapOK
      { updateLinkRow st.db item.link.id
          (fun l => { l with status := "in_progress", lastError := none }) with
        listingRows := st.db.listingRows ++ out.savedRows } :=
    RetryCapOK_update_same st.db item.link.id _ hcap (fun l => rfl)
  cases herr : out.err with
  | none =>
    simp only [runStepWith, herr]
    rw [tryUpdateSearchLinkStatus_allowed _ _ _ _ (by decide),
      tryUpdateSearchLinkStatus_allowed _ _ _ _ (by decide)]
    simp only [stOf]
    exact RetryCapOK_update_same _ _ _
      (RetryCapOK_update_same _ _ _ hcapB (fun l => rfl)) (fun l => rfl)
  | some e =>
    simp only [runStepWith, herr]
    by_cases hcf : 2 ≤ st.consecutiveFailures + 1
    · rw [if_pos hcf, tryUpdateSearchLinkStatus_allowed _ _ _ _ (by decide),
        tryUpdateSearchLinkStatus_allowed _ _ _ _ (by decide),
        tryUpdateRequestStatus_paused]
      simp only [stOf]
      exact RetryCapOK_update_same _ _ _ hcapB (fun l => rfl)
    · rw [if_neg hcf]
      by_cases hrc : item.retryCount < 3
      · rw [if_pos hrc, tryUpdateSearchLinkStatus_allowed _ _ _ _ (by decide)]
        simp only [stOf]
        have hndB : ((updateLinkRow st.db item.link.id
            (fun l => { l with status := "in_progress", lastError := none })).links.map
            (fun l => l.id)).Nodup := by
          rw [setStatus_ids]
          exact hnd
        have hgetB : getSearchLinkByID
            { updateLinkRow st.db item.link.id
                (fun l => { l with status := "in_progress", lastError := none }) with
              listingRows := st.db.listingRows ++ out.savedRows } item.link.id
            = some { item.link with status := "in_progress", lastError := none } := by
          rw [getSearchLinkByID_listingRows, getSearchLinkByID_setStatus, hl0]
          rfl
        have hrcB : ({ item.link with
            status := "in_progress", lastError := none } : SearchLink).retryCount < 3 := by
          show item.link.retryCount < 3
          omega
        apply RetryCapOK_update
        · exact hcapB
        · intro l hl hli
          show l.retryCount + 1 ≤ 3
          exact cap_of_unique_row _ item.link.id
            { item.link with status := "in_progress", lastError := none }
            hndB hgetB hrcB l hl hli
      · rw [if_neg hrc, tryUpdateSearchLinkStatus_allowed _ _ _ _ (by decide),
          tryUpdateSearchLinkStatus_allowed _ _ _ _ (by decide)]
        simp only [stOf]
        exact RetryCapOK_update_same _ _ _ hcapB (fun l => rfl)

/-- One loop iteration preserves queue/store consistency and the retry cap. -/
theorem runStepWith_sync (req : Request) (item : QueueItem) (st : LoopState)
    (out : LinkProcOutput)
    (hsync : QueueSync st.db (item :: st.queue)) (hcap : RetryCapOK st.db) :
    QueueSync (stOf (runStepWith req item st out)).db
      (stOf (runStepWith req item st out)).queue ∧
    RetryCapOK (stOf (runStepWith req item st out)).db := by
  obtain ⟨hnd, hndq, hmir⟩ := hsync
  obtain ⟨hl0, hrc0⟩ := hmir item (List.mem_cons_self _ _)
  have htail : QueueSync (stOf (runStepWith req item st out)).db st.queue :=
    QueueSync_tail_of st.db _ item st.queue ⟨hnd, hndq, hmir⟩
      (runStepWith_ids req item st out)
      (fun j hj => runStepWith_get_ne req item st out j hj)
  refine ⟨?_, runStepWith_cap req item st out hnd hl0 hrc0 hcap⟩
  cases herr : out.err with
  | none =>
    have h := runStepWith_success req item st out herr
    rw [h.2.1]
    exact htail
  | some e =>
    by_cases hcf : 1 ≤ st.consecutiveFailures
    · have h := runStepWith_pause req item st out e herr hcf
      rw [h.2.1]
      exact htail
    · have hcf0 : st.consecutiveFailures = 0 := by omega
      by_cases hrc : item.retryCount < 3
      · have h := runStepWith_requeue req item st out e item.link herr hcf0 hrc hl0
        rw [h.2.1]
        have h2' := List.nodup_cons.mp hndq
        refine ⟨?_, ?_, ?_⟩
        · rw [runStepWith_ids req item st out]
          exact hnd
        · rw [List.map_append]
          refine List.Nodup.append h2'.2 (List.nodup_singleton _) ?_
          intro a ha hb
          obtain ⟨it, hit, hfa⟩ := List.mem_map.mp hb
          rw [List.mem_singleton] at hit
          subst hit
          subst hfa
          exact h2'.1 ha
        · intro it hit
          rcases List.mem_append.mp hit with hL | hR
          · exact htail.2.2 it hL
          · rw [List.mem_singleton] at hR
            subst hR
            exact ⟨h.2.2.2.2.2.2, rfl⟩
      · have h := runStepWith_permfail req item st out e herr hcf0 hrc
        rw [h.2.1]
        exact htail

/-- `runStepWith_sync` restated over `runStep`. -/
theorem runStep_sync (env : Env) (req : Request) (item : QueueItem) (st : LoopState)
    (hsync : QueueSync st.db (item :: st.queue)) (hcap : RetryCapOK st.db) :
    QueueSync (stOf (runStep env req item st)).db
      (stOf (runStep env req item st)).queue ∧
    RetryCapOK (stOf (runStep env req item st)).db :=
  runStepWith_sync req item st _ hsync hcap

/-- Draining the queue preserves queue/store consistency and the retry cap. -/
theorem runQueue_sync (env : Env) (req : Request) :
    ∀ (fuel : Nat) (st : LoopState), QueueSync st.db st.queue → RetryCapOK st.db →
      QueueSync (runQueue env req fuel st).state.db
        (runQueue env req fuel st).state.queue ∧
      RetryCapOK (runQueue env req fuel st).state.db := by
  intro fuel
  induction fuel with
  | zero =>
    intro st hsync hcap
    exact ⟨hsync, hcap⟩
  | succ n ih =>
    intro st hsync hcap
    cases hq : st.queue with
    | nil =>
      rw [runQueue_succ_nil env req n st hq]
      exact ⟨hsync, hcap⟩
    | cons item rest =>
      rw [runQueue_succ_cons env req n st item rest hq]
      rw [hq] at hsync
      have hsteps := runStep_sync env req item { st with queue := rest } hsync hcap
      rcases hstep : runStep env req item { st with queue := rest } with s | s
      · rw [hstep] at hsteps
        exact hsteps
      · rw [hstep] at hsteps
        exact ih s hsteps.1 hsteps.2

/-! ## Orchestrator setup-path reductions -/

theorem sheetNameReusable_some {req : Request} (h : sheetNameReusable req = true) :
    ∃ s, req.sheetName = some s ∧ (s != "") = true := by
  unfold sheetNameReusable at h
  cases hsn : req.sheetName with
  | none => rw [hsn] at h; exact absurd h (by decide)
  | some s => rw [hsn] at h; exact ⟨s, rfl, h⟩

theorem initialQueue_mem {links : List SearchLink} {q : QueueItem}
    (hq : q ∈ initialQueue links) :
    q.link ∈ links ∧ q.link.status ≠ "done" ∧ q.retryCount = q.link.retryCount := by
  unfold initialQueue at hq
  rw [List.mem_map] at hq
  obtain ⟨l, hl, rfl⟩ := hq
  have h2 := List.mem_filter.mp hl
  refine ⟨h2.1, ?_, rfl⟩
  intro he
  have h3 := h2.2
  rw [he] at h3
  simp at h3

theorem hydrateSeen_nodup (links : List SearchLink) (rows : List (String × Nat))
    (h : (rows.map Prod.fst).Nodup) :
    ((hydrateSeen links rows).map Prod.fst).Nodup := by
  simp only [hydrateSeen]
  split
  · simp
  · exact h.sublist ((List.filter_sublist rows).map Prod.fst)

theorem processNextRequest_getLinksErr (env : Env) (req : Request) (db0 : DBState)
    (fuel : Nat) (e : String) (hge : env.getLinksError = some e) :
    processNextRequest env req db0 fuel =
      handleRequestError req (tryUpdateRequestStatus db0 "in_progress")
        [Event.setRequestStatus req.id "in_progress"] e := by
  simp only [processNextRequest, hge]

theorem processNextRequest_ok_sheet (env : Env) (req : Request) (db0 : DBState)
    (fuel : Nat) (s : String)
    (hge : env.getLinksError = none) (hcfg : env.configError = none)
    (hfc : env.fetcherCreateError = none)
    (hne : db0.links ≠ []) (hs : req.sheetName = some s) (hs' : (s != "") = true) :
    processNextRequest env req db0 fuel =
      mainLoopResult env req fuel
        { db := { db0 with reqStatus := "in_progress" },
          queue := initialQueue db0.links,
          seen := hydrateSeen db0.links db0.listingRows,
          events := [Event.setRequestStatus req.id "in_progress",
                     Event.notifyGeneric "Processing request"],
          linksSuccessful := doneLinksCount db0.links, linksFailed := 0,
          consecutiveFailures := 0, allEnriched := [], allUnfiltered := [],
          totalPagesFetched := 0,
          totalListingsBeforeFilter := doneListingsTotal db0.links,
          stepIdx := 0, sheetName := s } := by
  have hdb1 : tryUpdateRequestStatus db0 "in_progress" =
      { db0 with reqStatus := "in_progress" } :=
    tryUpdateRequestStatus_allowed db0 "in_progress" (by decide)
  have hie : db0.links.isEmpty = false := by
    cases hl : db0.links with
    | nil => exact absurd hl hne
    | cons a as => rfl
  have hsr : sheetNameReusable req = true := by
    unfold sheetNameReusable
    rw [hs]
    exact hs'
  simp only [processNextRequest, hge, hcfg, hfc, hdb1, hie, hsr, hs, hs',
    Bool.false_eq_true, if_false, if_true, List.cons_append, List.nil_append,
    List.append_nil]

theorem processNextRequest_ok_fresh (env : Env) (req : Request) (db0 : DBState)
    (fuel : Nat)
    (hge : env.getLinksError = none) (hcfg : env.configError = none)
    (hsc : env.sheetCreateError = none) (hfc : env.fetcherCreateError = none)
    (hne : db0.links ≠ []) (hsr : sheetNameReusable req = false) :
    processNextRequest env req db0 fuel =
      mainLoopResult env req fuel
        { db := updateRequestSheetName { db0 with reqStatus := "in_progress" }
                  ("Request_" ++ toString req.id),
          queue := initialQueue db0.links,
          seen := hydrateSeen db0.links db0.listingRows,
          events := [Event.setRequestStatus req.id "in_progress",
                     Event.notifyGeneric "Processing request",
                     Event.createSheet ("Request_" ++ toString req.id),
                     Event.setRequestSheetName req.id ("Request_" ++ toString req.id),
                     Event.notifyGeneric "Sheet ready"],
          linksSuccessful := doneLinksCount db0.links, linksFailed := 0,
          consecutiveFailures := 0, allEnriched := [], allUnfiltered := [],
          totalPagesFetched := 0,
          totalListingsBeforeFilter := doneListingsTotal db0.links,
          stepIdx := 0, sheetName := "Request_" ++ toString req.id } := by
  have hdb1 : tryUpdateRequestStatus db0 "in_progress" =
      { db0 with reqStatus := "in_progress" } :=
    tryUpdateRequestStatus_allowed db0 "in_progress" (by decide)
  have hie : db0.links.isEmpty = false := by
    cases hl : db0.links with
    | nil => exact absurd hl hne
    | cons a as => rfl
  cases hsn : req.sheetName with
  | none =>
    simp only [processNextRequest, hge, hcfg, hsc, hfc, hdb1, hie, hsr, hsn,
      updateRequestSheetName, Bool.false_eq_true, if_false, if_true,
      List.cons_append, List.nil_append, List.append_nil]
  | some s =>
    have hs0 : (s != "") = false := by
      unfold sheetNameReusable at hsr
      rw [hsn] at hsr
      exact hsr
    simp only [processNextRequest, hge, hcfg, hsc, hfc, hdb1, hie, hsr, hsn, hs0,
      updateRequestSheetName, Bool.false_eq_true, if_false, if_true,
      List.cons_append, List.nil_append, List.append_nil]

theorem processNextRequest_fetcherErr (env : Env) (req : Request) (db0 : DBState)
    (fuel : Nat) (e : String)
    (hge : env.getLinksError = none) (hcfg : env.configError = none)
    (hsc : env.sheetCreateError = none) (hfc : env.fetcherCreateError = some e)
    (hne : db0.links ≠ []) :
    ∃ dbx evs, processNextRequest env req db0 fuel = handleRequestError req dbx evs e := by
  have hdb1 : tryUpdateRequestStatus db0 "in_progress" =
      { db0 with reqStatus := "in_progress" } :=
    tryUpdateRequestStatus_allowed db0 "in_progress" (by decide)
  have hie : db0.links.isEmpty = false := by
    cases hl : db0.links with
    | nil => exact absurd hl hne
    | cons a as => rfl
  by_cases hsr : sheetNameReusable req = true
  · obtain ⟨s, hs, hs'⟩ := sheetNameReusable_some hsr
    refine ⟨{ db0 with reqStatus := "in_progress" },
      [Event.setRequestStatus req.id "in_progress",
       Event.notifyGeneric "Processing request"], ?_⟩
    simp only [processNextRequest, hge, hcfg, hfc, hdb1, hie, hsr, hs, hs',
      Bool.false_eq_true, if_false, if_true,
      List.cons_append, List.nil_append, List.append_nil]
  · rw [Bool.not_eq_true] at hsr
    cases hsn : req.sheetName with
    | none =>
      refine ⟨updateRequestSheetName { db0 with reqStatus := "in_progress" }
          ("Request_" ++ toString req.id),
        [Event.setRequestStatus req.id "in_progress",
         Event.notifyGeneric "Processing request",
         Event.createSheet ("Request_" ++ toString req.id),
         Event.setRequestSheetName req.id ("Request_" ++ toString req.id),
         Event.notifyGeneric "Sheet ready"], ?_⟩
      simp only [processNextRequest, hge, hcfg, hsc, hfc, hdb1, hie, hsr, hsn,
        updateRequestSheetName, Bool.false_eq_true, if_false, if_true,
        List.cons_append, List.nil_append, List.append_nil]
    | some s =>
      have hs0 : (s != "") = false := by
        unfold sheetNameReusable at hsr
        rw [hsn] at hsr
        exact hsr
      refine ⟨updateRequestSheetName { db0 with reqStatus := "in_progress" }
          ("Request_" ++ toString req.id),
        [Event.setRequestStatus req.id "in_progress",
         Event.notifyGeneric "Processing request",
         Event.createSheet ("Request_" ++ toString req.id),
         Event.setRequestSheetName req.id ("Request_" ++ toString req.id),
         Event.notifyGeneric "Sheet ready"], ?_⟩
      simp only [processNextRequest, hge, hcfg, hsc, hfc, hdb1, hie, hsr, hsn, hs0,
        updateRequestSheetName, Bool.false_eq_true, if_false, if_true,
        List.cons_append, List.nil_append, List.append_nil]

theorem mainLoopResult_events_cases (env : Env) (req : Request) (fuel : Nat)
    (st0 : LoopState) :
    (mainLoopResult env req fuel st0).events = (runQueue env req fuel st0).state.events ∨
    (mainLoopResult env req fuel st0).events = (runQueue env req fuel st0).state.events ++
      [Event.setRequestStatus req.id "failed",
       Event.notifyGeneric "Error processing request: all links failed to process"] ∨
    (mainLoopResult env req fuel st0).events = (runQueue env req fuel st0).state.events ++
      [Event.setRequestCounts req.id (runQueue env req fuel st0).state.allEnriched.length
          (runQueue env req fuel st0).state.totalPagesFetched,
       Event.setRequestStatus req.id "done", Event.notifyGeneric "Completed"] := by
  simp only [mainLoopResult]
  by_cases h1 : ((runQueue env req fuel st0).pausedFlag
      || (runQueue env req fuel st0).outOfFuel) = true
  · rw [if_pos h1]
    exact Or.inl rfl
  · rw [if_neg h1]
    by_cases h2 : (runQueue env req fuel st0).state.allEnriched.length = 0 ∧
        (runQueue env req fuel st0).state.linksSuccessful = 0
    · rw [if_pos h2]
      exact Or.inr (Or.inl rfl)
    · rw [if_neg h2]
      exact Or.inr (Or.inr rfl)

theorem mainLoopResult_listings_cases (env : Env) (req : Request) (fuel : Nat)
    (st0 : LoopState) :
    ((mainLoopResult env req fuel st0).allEnriched = (runQueue env req fuel st0).state.allEnriched ∧
     (mainLoopResult env req fuel st0).allUnfiltered = (runQueue env req fuel st0).state.allUnfiltered ∧
     (mainLoopResult env req fuel st0).seen = (runQueue env req fuel st0).state.seen) ∨
    ((mainLoopResult env req fuel st0).allEnriched = [] ∧
     (mainLoopResult env req fuel st0).allUnfiltered = [] ∧
     (mainLoopResult env req fuel st0).seen = []) := by
  simp only [mainLoopResult]
  by_cases h1 : ((runQueue env req fuel st0).pausedFlag
      || (runQueue env req fuel st0).outOfFuel) = true
  · rw [if_pos h1]
    exact Or.inl ⟨rfl, rfl, rfl⟩
  · rw [if_neg h1]
    by_cases h2 : (runQueue env req fuel st0).state.allEnriched.length = 0 ∧
        (runQueue env req fuel st0).state.linksSuccessful = 0
    · rw [if_pos h2]
      exact Or.inr ⟨rfl, rfl, rfl⟩
    · rw [if_neg h2]
      exact Or.inl ⟨rfl, rfl, rfl⟩

theorem mainLoopResult_listingRows (env : Env) (req : Request) (fuel : Nat)
    (st0 : LoopState) :
    (mainLoopResult env req fuel st0).db.listingRows =
      (runQueue env req fuel st0).state.db.listingRows := by
  simp only [mainLoopResult]
  by_cases h1 : ((runQueue env req fuel st0).pausedFlag
      || (runQueue env req fuel st0).outOfFuel) = true
  · rw [if_pos h1]
  · rw [if_neg h1]
    by_cases h2 : (runQueue env req fuel st0).state.allEnriched.length = 0 ∧
        (runQueue env req fuel st0).state.linksSuccessful = 0
    · rw [if_pos h2]
      show (tryUpdateRequestStatus _ "failed").listingRows = _
      rw [tryURS_listingRows]
    · rw [if_neg h2]
      show (tryUpdateRequestStatus _ "done").listingRows = _
      rw [tryURS_listingRows]
      rfl

theorem mainLoopResult_pausedFlag_reqStatus (env : Env) (req : Request) (fuel : Nat)
    (st0 : LoopState) :
    (mainLoopResult env req fuel st0).pausedFlag = true →
    (mainLoopResult env req fuel st0).db.reqStatus = st0.db.reqStatus := by
  simp only [mainLoopResult]
  by_cases h1 : ((runQueue env req fuel st0).pausedFlag
      || (runQueue env req fuel st0).outOfFuel) = true
  · rw [if_pos h1]
    intro _
    exact runQueue_reqStatus env req fuel st0
  · rw [if_neg h1]
    by_cases h2 : (runQueue env req fuel st0).state.allEnriched.length = 0 ∧
        (runQueue env req fuel st0).state.linksSuccessful = 0
    · rw [if_pos h2]
      intro h
      exact Bool.noConfusion h
    · rw [if_neg h2]
      intro h
      exact Bool.noConfusion h

theorem mainLoopResult_failedIff (env : Env) (req : Request) (fuel : Nat)
    (st0 : LoopState) (S : List Nat)
    (hev0 : Event.setRequestStatus req.id "failed" ∉ st0.events)
    (hq : ∀ q ∈ st0.queue, q.link.id ∈ S) :
    Event.setRequestStatus req.id "failed" ∈ (mainLoopResult env req fuel st0).events ↔
      ((mainLoopResult env req fuel st0).pausedFlag = false ∧
       (mainLoopResult env req fuel st0).outOfFuel = false ∧
       (mainLoopResult env req fuel st0).allEnriched = [] ∧
       (mainLoopResult env req fuel st0).linksSuccessful = 0) := by
  obtain ⟨tail, htail, hscope⟩ := runQueue_events env req S st0.sheetName fuel st0 hq rfl
  have hnp : Event.setRequestStatus req.id "failed" ∉
      (runQueue env req fuel st0).state.events := by
    rw [htail]
    intro hmem
    rcases List.mem_append.mp hmem with h | h
    · exact hev0 h
    · have h2 : ("failed" : String) = "paused" := hscope _ h
      exact absurd h2 (by decide)
  simp only [mainLoopResult]
  by_cases h1 : ((runQueue env req fuel st0).pausedFlag
      || (runQueue env req fuel st0).outOfFuel) = true
  · rw [if_pos h1]
    constructor
    · intro hmem
      exact absurd hmem hnp
    · rintro ⟨hpf, hoof, -, -⟩
      have hpf' : (runQueue env req fuel st0).pausedFlag = false := hpf
      have hoof' : (runQueue env req fuel st0).outOfFuel = false := hoof
      rw [hpf', hoof'] at h1
      exact absurd h1 (by decide)
  · rw [if_neg h1]
    by_cases h2 : (runQueue env req fuel st0).state.allEnriched.length = 0 ∧
        (runQueue env req fuel st0).state.linksSuccessful = 0
    · rw [if_pos h2]
      constructor
      · intro _
        exact ⟨rfl, rfl, rfl, rfl⟩
      · intro _
        show Event.setRequestStatus req.id "failed" ∈
          (runQueue env req fuel st0).state.events ++
            [Event.setRequestStatus req.id "failed",
             Event.notifyGeneric "Error processing request: all links failed to process"]
        exact List.mem_append_right _ (List.mem_cons_self _ _)
    · rw [if_neg h2]
      constructor
      · intro hmem
        rcases List.mem_append.mp hmem with h | h
        · exact absurd h hnp
        · rcases List.mem_cons.mp h with he | h
          · exact Event.noConfusion he
          · rcases List.mem_cons.mp h with he | h
            · injection he with hea heb
              exact absurd heb (by decide)
            · rcases List.mem_cons.mp h with he | h
              · exact Event.noConfusion he
              · simp at h
      · rintro ⟨hpf, hoof, hae, hls⟩
        have hae' : (runQueue env req fuel st0).state.allEnriched = [] := hae
        have hls' : (runQueue env req fuel st0).state.linksSuccessful = 0 := hls
        exact absurd ⟨by rw [hae']; rfl, hls'⟩ h2

theorem parsePages_nil (ln : Nat) (fp : List (Except String (List Listing)))
    (hzero : ∀ p ∈ fp, ∀ ls, p = Except.ok ls → ls = []) :
    fp.enum.flatMap (fun p =>
      match p.2 with
      | .error _ => []
      | .ok ls => ls.map (fun l => { l with pageNumber := p.1 + 1, linkNumber := ln })) = [] := by
  apply List.flatMap_eq_nil_iff.mpr
  intro p hp
  have hp2 : p.2 ∈ fp := by
    have h1 := List.mem_map_of_mem Prod.snd hp
    rw [List.enum_map_snd] at h1
    exact h1
  cases hps : p.2 with
  | error e => rfl
  | ok ls =>
    have := hzero p.2 hp2 ls hps
    rw [this]
    rfl

theorem processSearchLink_zero (k : Listing → Bool)
    (d : Nat → Listing → Option DetailData) (a : List Nat) (ln : Nat)
    (s0 : List (String × Nat)) (fp : List (Except String (List Listing)))
    (hne : fp ≠ [])
    (hzero : ∀ p ∈ fp, ∀ ls, p = Except.ok ls → ls = []) :
    processSearchLink k (Except.ok fp) d a ln s0 =
      { enriched := [], unfiltered := [], pagesFetched := fp.length,
        totalListings := 0, seen := s0, savedRows := [], err := none } := by
  have hie : fp.isEmpty = false := by
    cases hl : fp with
    | nil => exact absurd hl hne
    | cons x xs => rfl
  have hall := parsePages_nil ln fp hzero
  simp only [processSearchLink, hie, hall, Bool.false_eq_true, if_false,
    List.isEmpty_nil, if_true, List.length_nil]

/-! # Claim theorems -/

/-- **C1.** In the link-processing loop, a failing iteration pauses the
request exactly when the consecutive-failure counter reaches 2 (one earlier
consecutive failure, never on the first), and at that moment the failing
link is set back to `pending`, a `paused` request-status write and a pause
notification with a resume affordance are emitted, and the remaining queue
is returned undrained; a successful iteration resets the counter to 0. -/
theorem C1_circuit_breaker (req : Request) (item : QueueItem) (st : LoopState)
    (out : LinkProcOutput) :
    ((∃ e, out.err = some e) →
      ((isPausedStep (runStepWith req item st out) = true ↔
          1 ≤ st.consecutiveFailures) ∧
       (1 ≤ st.consecutiveFailures →
         (stOf (runStepWith req item st out)).queue = st.queue ∧
         (stOf (runStepWith req item st out)).events =
           st.events ++ backoffEvents item
             ++ [Event.notifyStartingLink item.link.linkNumber item.retryCount,
                 Event.setLinkStatus item.link.id "in_progress" none]
             ++ out.savedRows.map (fun r => Event.saveListing r.1 r.2)
             ++ [Event.setLinkStatus item.link.id "pending" none,
                 Event.setRequestStatus req.id "paused",
                 Event.notifyPausedWithResume req.id] ∧
         getSearchLinkByID (stOf (runStepWith req item st out)).db item.link.id =
           (getSearchLinkByID st.db item.link.id).map
             (fun l => { l with status := "pending", lastError := none })))) ∧
    (out.err = none →
      isPausedStep (runStepWith req item st out) = false ∧
      (stOf (runStepWith req item st out)).consecutiveFailures = 0) := by
  constructor
  · rintro ⟨e, herr⟩
    refine ⟨⟨?_, fun hcf => (runStepWith_pause req item st out e herr hcf).1⟩, ?_⟩
    · intro hp
      by_contra hcf
      have hcf0 : st.consecutiveFailures = 0 := by omega
      have hfalse : isPausedStep (runStepWith req item st out) = false := by
        simp only [runStepWith, herr, hcf0]
        rw [if_neg (by decide : ¬(2 ≤ 0 + 1))]
        by_cases hrc : item.retryCount < 3
        · rw [if_pos hrc]
          rfl
        · rw [if_neg hrc]
          rfl
      rw [hp] at hfalse
      exact absurd hfalse (by decide)
    · intro hcf
      have h := runStepWith_pause req item st out e herr hcf
      exact ⟨h.2.1, h.2.2.2.1, h.2.2.2.2.2⟩
  · intro hok
    have h := runStepWith_success req item st out hok
    exact ⟨h.1, h.2.2.1⟩

/-- Witness for C1: with one earlier consecutive failure, a failing link 3
trips the breaker and the remaining queue (link 2) is returned undrained. -/
theorem C1_circuit_breaker_witness :
    isPausedStep (runStepWith scenReq scenItem3 scenStBreaker scenOutErr) = true ∧
    (stOf (runStepWith scenReq scenItem3 scenStBreaker scenOutErr)).queue =
      scenStBreaker.queue := by
  have h := (C1_circuit_breaker scenReq scenItem3 scenStBreaker scenOutErr).1
    ⟨"fetch failed: blocked", rfl⟩
  exact ⟨h.1.mpr (by decide), (h.2 (by decide)).1⟩

/-- **C8.** Every loop iteration starts with the back-off events of the popped
item; for an item with retry count `n ≥ 1` they announce and wait exactly
`min (3 + (n - 1)) 5` minutes, and for retry count 0 there are none. -/
theorem C8_backoff (req : Request) (item : QueueItem) (st : LoopState)
    (out : LinkProcOutput) :
    (∃ tail, (stOf (runStepWith req item st out)).events =
        (st.events ++ backoffEvents item) ++ tail) ∧
    (1 ≤ item.retryCount →
      backoffEvents item =
        [Event.notifyWaitingRetry item.link.linkNumber
           (min (3 + (item.retryCount - 1)) 5),
         Event.waitMinutes (min (3 + (item.retryCount - 1)) 5)
           item.link.linkNumber]) ∧
    (item.retryCount = 0 → backoffEvents item = []) := by
  refine ⟨?_, ?_, ?_⟩
  · cases herr : out.err with
    | none =>
      have hev := (runStepWith_success req item st out herr).2.2.2.2.2.2.2.1
      refine ⟨[Event.notifyStartingLink item.link.linkNumber item.retryCount,
               Event.setLinkStatus item.link.id "in_progress" none]
              ++ out.savedRows.map (fun r => Event.saveListing r.1 r.2)
              ++ [Event.setLinkStatus item.link.id "done" none,
                  Event.setLinkListingsCount item.link.id
                    out.enriched.length,
                  Event.appendSheet st.sheetName (out.enriched ++ out.unfiltered),
                  Event.notifyLinkDone item.link.linkNumber out.totalListings
                    out.enriched.length], ?_⟩
      rw [hev]
      simp only [List.append_assoc]
    | some e =>
      by_cases hcf : 1 ≤ st.consecutiveFailures
      · have hev := (runStepWith_pause req item st out e herr hcf).2.2.2.1
        refine ⟨[Event.notifyStartingLink item.link.linkNumber item.retryCount,
                 Event.setLinkStatus item.link.id "in_progress" none]
                ++ out.savedRows.map (fun r => Event.saveListing r.1 r.2)
                ++ [Event.setLinkStatus item.link.id "pending" none,
                    Event.setRequestStatus req.id "paused",
                    Event.notifyPausedWithResume req.id], ?_⟩
        rw [hev]
        simp only [List.append_assoc]
      · have hcf0 : st.consecutiveFailures = 0 := by omega
        by_cases hrc : item.retryCount < 3
        · refine ⟨[Event.notifyStartingLink item.link.linkNumber item.retryCount,
                   Event.setLinkStatus item.link.id "in_progress" none]
                  ++ out.savedRows.map (fun r => Event.saveListing r.1 r.2)
                  ++ [Event.incrementRetry item.link.id,
                      Event.notifyWillRetry item.link.linkNumber
                        (item.retryCount + 1)], ?_⟩
          simp only [runStepWith, herr, hcf0]
          rw [if_neg (by decide : ¬(2 ≤ 0 + 1)), if_pos hrc]
          simp only [stOf, List.append_assoc]
        · have hev := (runStepWith_permfail req item st out e herr hcf0 hrc).2.2.2.2.1
          refine ⟨[Event.notifyStartingLink item.link.linkNumber item.retryCount,
                   Event.setLinkStatus item.link.id "in_progress" none]
                  ++ out.savedRows.map (fun r => Event.saveListing r.1 r.2)
                  ++ [Event.setLinkStatus item.link.id "failed" (some e),
                      Event.notifyPermanentFail item.link.linkNumber], ?_⟩
          rw [hev]
          simp only [List.append_assoc]
  · intro h1
    simp only [backoffEvents]
    rw [if_pos (by omega : item.retryCount > 0)]
    by_cases h5 : 3 + (item.retryCount - 1) > 5
    · rw [if_pos h5]
      have hm : min (3 + (item.retryCount - 1)) 5 = 5 := by omega
      rw [hm]
    · rw [if_neg h5]
      have hm : min (3 + (item.retryCount - 1)) 5 = 3 + (item.retryCount - 1) := by
        omega
      rw [hm]
  · intro h0
    simp only [backoffEvents, h0]
    rw [if_neg (by decide : ¬((0 : Nat) > 0))]

/-- Witness for C8: a fourth retry waits the capped 5 minutes; a first
attempt waits nothing. -/
theorem C8_backoff_witness :
    backoffEvents scenItemB4 =
      [Event.notifyWaitingRetry 1 5, Event.waitMinutes 5 1] ∧
    backoffEvents scenItem3 = [] := by
  have h4 := C8_backoff scenReq scenItemB4 scenSt0 scenOutErr
  have h0 := C8_backoff scenReq scenItem3 scenSt0 scenOutErr
  constructor
  · rw [h4.2.1 (by decide)]
    decide
  · exact h0.2.2 rfl

/-- **C3.** A link whose fetch returns at least one page but whose pages
parse to zero listings is a success: no error, nothing kept or persisted,
and the loop marks the link `done` with listings-count 0 (never `failed`). -/
theorem C3_zero_listings (k : Listing → Bool) (d : Nat → Listing → Option DetailData)
    (a : List Nat) (ln : Nat) (s0 : List (String × Nat))
    (fp : List (Except String (List Listing))) (req : Request) (item : QueueItem)
    (st : LoopState)
    (hne : fp ≠ []) (hzero : ∀ p ∈ fp, ∀ ls, p = Except.ok ls → ls = []) :
    (processSearchLink k (Except.ok fp) d a ln s0).err = none ∧
    (processSearchLink k (Except.ok fp) d a ln s0).enriched = [] ∧
    (processSearchLink k (Except.ok fp) d a ln s0).savedRows = [] ∧
    (processSearchLink k (Except.ok fp) d a ln s0).pagesFetched = fp.length ∧
    isPausedStep (runStepWith req item st
      (processSearchLink k (Except.ok fp) d a ln s0)) = false ∧
    (stOf (runStepWith req item st
        (processSearchLink k (Except.ok fp) d a ln s0))).events =
      st.events ++ backoffEvents item
        ++ [Event.notifyStartingLink item.link.linkNumber item.retryCount,
            Event.setLinkStatus item.link.id "in_progress" none]
        ++ [Event.setLinkStatus item.link.id "done" none,
            Event.setLinkListingsCount item.link.id 0,
            Event.appendSheet st.sheetName [],
            Event.notifyLinkDone item.link.linkNumber 0 0] ∧
    getSearchLinkByID (stOf (runStepWith req item st
        (processSearchLink k (Except.ok fp) d a ln s0))).db item.link.id =
      (getSearchLinkByID st.db item.link.id).map
        (fun l => { l with
          status := "done", lastError := none, listingsCount := 0 }) := by
  have hps := processSearchLink_zero k d a ln s0 fp hne hzero
  rw [hps]
  have h := runStepWith_success req item st
    { enriched := [], unfiltered := [], pagesFetched := fp.length,
      totalListings := 0, seen := s0, savedRows := [], err := none } rfl
  refine ⟨rfl, rfl, rfl, rfl, h.1, ?_, ?_⟩
  · rw [h.2.2.2.2.2.2.2.1]
    simp only [List.map_nil, List.append_nil, List.nil_append, List.length_nil]
  · exact h.2.2.2.2.2.2.2.2.2.2

/-- Witness for C3: one fetched page parsing to zero listings leaves the
stored row of link 3 `done` with listings-count 0. -/
theorem C3_zero_listings_witness :
    (processSearchLink scenEnvBase.keep (Except.ok [Except.ok []])
      (scenEnvBase.detailOracle 0) (scenEnvBase.arrival 0) 3 []).err = none ∧
    getSearchLinkByID (stOf (runStepWith scenReq scenItem3 scenSt0
        (processSearchLink scenEnvBase.keep (Except.ok [Except.ok []])
          (scenEnvBase.detailOracle 0) (scenEnvBase.arrival 0) 3
          []))).db scenItem3.link.id =
      some { scenLink 3 3 "done" 0 with lastError := none, listingsCount := 0 } := by
  have h := C3_zero_listings scenEnvBase.keep (scenEnvBase.detailOracle 0)
    (scenEnvBase.arrival 0) 3 [] [Except.ok []] scenReq scenItem3 scenSt0
    (List.cons_ne_nil _ _)
    (by intro p hp ls hpe
        rw [List.mem_singleton] at hp
        subst hp
        exact (Except.ok.inj hpe).symm)
  refine ⟨h.1, ?_⟩
  rw [h.2.2.2.2.2.2]
  decide

/-- **C2** (amended). On a popped link's failure outside the breaker, the
code checks the PRE-increment count `item.retryCount`: when it is `< 3` the
stored count is incremented and the link re-enqueued at the tail carrying
the NEW count (which can therefore reach 3 and be attempted again); when it
is already `≥ 3` the link is marked terminally `failed` with the error text
recorded and is not re-enqueued, and no increment happens.  Stored retry
counts never exceed 3 in a consistent run. -/
theorem C2_retry_queue (env : Env) (req : Request) (item : QueueItem)
    (st st0 : LoopState) (out : LinkProcOutput) (e : String) (fuel : Nat)
    (herr : out.err = some e) (hcf : st.consecutiveFailures = 0)
    (hl0 : getSearchLinkByID st.db item.link.id = some item.link) :
    (item.retryCount < 3 →
      (stOf (runStepWith req item st out)).queue =
        st.queue ++ [{ link := { item.link with
                         status := "pending", lastError := none,
                         retryCount := item.link.retryCount + 1 },
                       retryCount := item.link.retryCount + 1 }] ∧
      getSearchLinkByID (stOf (runStepWith req item st out)).db item.link.id =
        some { item.link with
          status := "pending", lastError := none,
          retryCount := item.link.retryCount + 1 } ∧
      (stOf (runStepWith req item st out)).events =
        st.events ++ backoffEvents item
          ++ [Event.notifyStartingLink item.link.linkNumber item.retryCount,
              Event.setLinkStatus item.link.id "in_progress" none]
          ++ out.savedRows.map (fun r => Event.saveListing r.1 r.2)
          ++ [Event.incrementRetry item.link.id,
              Event.notifyWillRetry item.link.linkNumber (item.retryCount + 1)]) ∧
    (¬ item.retryCount < 3 →
      (stOf (runStepWith req item st out)).queue = st.queue ∧
      getSearchLinkByID (stOf (runStepWith req item st out)).db item.link.id =
        some { item.link with status := "failed", lastError := some e } ∧
      (stOf (runStepWith req item st out)).events =
        st.events ++ backoffEvents item
          ++ [Event.notifyStartingLink item.link.linkNumber item.retryCount,
              Event.setLinkStatus item.link.id "in_progress" none]
          ++ out.savedRows.map (fun r => Event.saveListing r.1 r.2)
          ++ [Event.setLinkStatus item.link.id "failed" (some e),
              Event.notifyPermanentFail item.link.linkNumber]) ∧
    (QueueSync st0.db st0.queue → RetryCapOK st0.db →
      ∀ l ∈ (runQueue env req fuel st0).state.db.links, l.retryCount ≤ 3) := by
  refine ⟨?_, ?_, ?_⟩
  · intro hrc
    have h := runStepWith_requeue req item st out e item.link herr hcf hrc hl0
    exact ⟨h.2.1, h.2.2.2.2.2.2, h.2.2.2.2.1⟩
  · intro hrc
    have h := runStepWith_permfail req item st out e herr hcf hrc
    refine ⟨h.2.1, ?_, h.2.2.2.2.1⟩
    rw [h.2.2.2.2.2.2, hl0]
    rfl
  · intro hs hc
    exact (runQueue_sync env req fuel st0 hs hc).2

/-- Witness for C2: a link whose stored count is 2 fails, is incremented to 3
and re-enqueued at the tail with count 3. -/
theorem C2_retry_queue_witness :
    (stOf (runStepWith scenReq scenItemR scenStR scenOutErr)).queue =
      [{ link := scenLink 1 1 "pending" 3, retryCount := 3 }] := by
  have h := (C2_retry_queue scenEnvBase scenReq scenItemR scenStR scenSt0 scenOutErr
    "fetch failed: blocked" 0 rfl rfl (by decide)).1 (by decide)
  rw [h.1]
  decide

/-- Counterexample for C2 as worded: the spec says a POST-increment count of
3 marks the link terminally `failed` and never re-enqueues, but the code
tests the pre-increment count, so a link stored at count 2 that fails is
incremented to 3, re-enqueued, attempted again at count 3 (`notifyStartingLink
1 3`), never marked `failed`, and here ends `done` at count 3. -/
theorem C2_retry_queue_cex :
    Event.incrementRetry 1 ∈
      (processNextRequest scenEnvRetry scenReq scenDBRetry 4).events ∧
    Event.notifyWillRetry 1 3 ∈
      (processNextRequest scenEnvRetry scenReq scenDBRetry 4).events ∧
    Event.notifyStartingLink 1 3 ∈
      (processNextRequest scenEnvRetry scenReq scenDBRetry 4).events ∧
    ((processNextRequest scenEnvRetry scenReq scenDBRetry 4).events.filter
      (fun ev => match ev with
        | Event.setLinkStatus _ "failed" _ => true
        | _ => false)) = [] ∧
    getSearchLinkByID (processNextRequest scenEnvRetry scenReq scenDBRetry 4).db 1 =
      some (scenLink 1 1 "done" 3) := by
  decide

/-- **C6.** Sharding a URL with `price_min=0&price_max=200` at step 50 yields
exactly the four windows `[0,50)`, `[50,100)`, `[100,150)`, `[150,200]`, each
preserving the unrelated `adults` parameter and the non-price selected-filter
entry unchanged, with labels `$0-$50` … `$150-$200` recoverable from the
sub-URLs; a URL without `price_max` yields the single unchanged URL labeled
`all prices`; a lower bound not strictly below the upper bound yields the
single original URL unmodified. -/
theorem C6_price_range_sharder :
    GeneratePriceRangeURLs scenShardURL 50 = Except.ok
      [{ url := ⟨"https://www.airbnb.com/s/Bangkok/homes",
           [("adults", ["2"]), ("price_min", ["0"]), ("price_max", ["50"]),
            ("selected_filter_order[]",
             ["amenity:33", "price_min:0", "price_max:50"])]⟩,
         label := "$0-$50", min := 0, max := 50 },
       { url := ⟨"https://www.airbnb.com/s/Bangkok/homes",
           [("adults", ["2"]), ("price_min", ["50"]), ("price_max", ["100"]),
            ("selected_filter_order[]",
             ["amenity:33", "price_min:50", "price_max:100"])]⟩,
         label := "$50-$100", min := 50, max := 100 },
       { url := ⟨"https://www.airbnb.com/s/Bangkok/homes",
           [("adults", ["2"]), ("price_min", ["100"]), ("price_max", ["150"]),
            ("selected_filter_order[]",
             ["amenity:33", "price_min:100", "price_max:150"])]⟩,
         label := "$100-$150", min := 100, max := 150 },
       { url := ⟨"https://www.airbnb.com/s/Bangkok/homes",
           [("adults", ["2"]), ("price_min", ["150"]), ("price_max", ["200"]),
            ("selected_filter_order[]",
             ["amenity:33", "price_min:150", "price_max:200"])]⟩,
         label := "$150-$200", min := 150, max := 200 }] ∧
    (GeneratePriceRangeURLs scenShardURL 50).map
      (fun l => l.map (fun p => ExtractPriceRangeLabel p.url)) =
      Except.ok ["$0-$50", "$50-$100", "$100-$150", "$150-$200"] ∧
    GeneratePriceRangeURLs scenShardNoMax 50 =
      Except.ok [{ url := scenShardNoMax, label := "all prices",
                   min := 0, max := 0 }] ∧
    ExtractPriceRangeLabel scenShardNoMax = "all prices" ∧
    GeneratePriceRangeURLs scenShardDegen 50 =
      Except.ok [{ url := scenShardDegen, label := "$300-$200",
                   min := 300, max := 200 }] := by
  decide

/-- **C9** (amended). With a healthy setup, the request is marked `failed`
exactly when the loop drains (no pause, no fuel exhaustion) with zero link
successes and zero kept listings; link-level errors alone never escalate.
But the claim's "only two cases" is too narrow: any setup failure — here a
browser-creation failure, which is neither link exhaustion nor a sink
failure — also marks the request `failed`. -/
theorem C9_request_failed_escalation (env : Env) (req : Request) (db0 : DBState)
    (fuel : Nat) (hne : db0.links ≠ []) :
    (env.getLinksError = none → env.configError = none →
     env.sheetCreateError = none → env.fetcherCreateError = none →
      (Event.setRequestStatus req.id "failed" ∈
          (processNextRequest env req db0 fuel).events ↔
        ((processNextRequest env req db0 fuel).pausedFlag = false ∧
         (processNextRequest env req db0 fuel).outOfFuel = false ∧
         (processNextRequest env req db0 fuel).allEnriched = [] ∧
         (processNextRequest env req db0 fuel).linksSuccessful = 0))) ∧
    (∀ e, env.getLinksError = none → env.configError = none →
      env.sheetCreateError = none → env.fetcherCreateError = some e →
      Event.setRequestStatus req.id "failed" ∈
        (processNextRequest env req db0 fuel).events) := by
  constructor
  · intro hge hcfg hsc hfc
    by_cases hsr : sheetNameReusable req = true
    · obtain ⟨s, hs, hs'⟩ := sheetNameReusable_some hsr
      rw [processNextRequest_ok_sheet env req db0 fuel s hge hcfg hfc hne hs hs']
      apply mainLoopResult_failedIff env req fuel _
        ((initialQueue db0.links).map (fun q => q.link.id))
      · intro hmem
        rcases List.mem_cons.mp hmem with he | hmem
        · injection he with h1 h2
          exact absurd h2 (by decide)
        · rcases List.mem_cons.mp hmem with he | hmem
          · exact Event.noConfusion he
          · simp at hmem
      · intro q hq
        exact List.mem_map_of_mem _ hq
    · rw [Bool.not_eq_true] at hsr
      rw [processNextRequest_ok_fresh env req db0 fuel hge hcfg hsc hfc hne hsr]
      apply mainLoopResult_failedIff env req fuel _
        ((initialQueue db0.links).map (fun q => q.link.id))
      · intro hmem
        rcases List.mem_cons.mp hmem with he | hmem
        · injection he with h1 h2
          exact absurd h2 (by decide)
        · rcases List.mem_cons.mp hmem with he | hmem
          · exact Event.noConfusion he
          · rcases List.mem_cons.mp hmem with he | hmem
            · exact Event.noConfusion he
            · rcases List.mem_cons.mp hmem with he | hmem
              · exact Event.noConfusion he
              · rcases List.mem_cons.mp hmem with he | hmem
                · exact Event.noConfusion he
                · simp at hmem
      · intro q hq
        exact List.mem_map_of_mem _ hq
  · intro e hge hcfg hsc hfc
    obtain ⟨dbx, evs, hred⟩ := processNextRequest_fetcherErr env req db0 fuel e
      hge hcfg hsc hfc hne
    rw [hred]
    exact List.mem_append_right _ (List.mem_cons_self _ _)

/-- **C9 — counterexample.** A browser-creation failure — neither link
exhaustion nor a sink failure — still marks the request `failed`, without
any link ever being attempted (`linksFailed = 0`, no link events at all). -/
theorem C9_request_failed_cex :
    (processNextRequest scenEnvNoBrowser scenReq scenDB3 4).events =
      [Event.setRequestStatus 1 "in_progress",
       Event.notifyGeneric "Processing request",
       Event.createSheet "Request_1",
       Event.setRequestSheetName 1 "Request_1",
       Event.notifyGeneric "Sheet ready",
       Event.setRequestStatus 1 "failed",
       Event.notifyGeneric "Error processing request: browser start failed"] ∧
    (processNextRequest scenEnvNoBrowser scenReq scenDB3 4).linksFailed = 0 := by
  decide

/-- Witness for C9: the setup-failure escalation applied to the concrete
no-browser scenario. -/
theorem C9_request_failed_escalation_witness :
    Event.setRequestStatus 1 "failed" ∈
      (processNextRequest scenEnvNoBrowser scenReq scenDB3 4).events :=
  (C9_request_failed_escalation scenEnvNoBrowser scenReq scenDB3 4
    (by decide)).2 "browser start failed" rfl rfl rfl rfl

/-- **C10.** The `requests` CHECK constraint accepts exactly
`created`/`in_progress`/`done`/`failed` — not `paused` — so the breaker's
durable `paused` write is rejected with an error that the pause path only
logs, and a paused run leaves the stored request status `in_progress`. -/
theorem C10_paused_rejected (env : Env) (req : Request) (db0 db : DBState)
    (fuel : Nat)
    (hge : env.getLinksError = none) (hcfg : env.configError = none)
    (hsc : env.sheetCreateError = none) (hfc : env.fetcherCreateError = none)
    (hne : db0.links ≠ []) :
    (∀ s, requestStatusAllowed s = true ↔
      (s = "created" ∨ s = "in_progress" ∨ s = "done" ∨ s = "failed")) ∧
    requestStatusAllowed "paused" = false ∧
    updateRequestStatus db "paused" =
      Except.error "violates check constraint valid_status" ∧
    tryUpdateRequestStatus db "paused" = db ∧
    ((processNextRequest env req db0 fuel).pausedFlag = true →
      (processNextRequest env req db0 fuel).db.reqStatus = "in_progress") := by
  refine ⟨?_, rfl, ?_, tryUpdateRequestStatus_paused db, ?_⟩
  · intro s
    simp [requestStatusAllowed, List.contains_iff_exists_mem_beq]
  · unfold updateRequestStatus
    rw [if_neg (by decide : ¬(requestStatusAllowed "paused" = true))]
  · intro hpf
    by_cases hsr : sheetNameReusable req = true
    · obtain ⟨s, hs, hs'⟩ := sheetNameReusable_some hsr
      rw [processNextRequest_ok_sheet env req db0 fuel s hge hcfg hfc hne hs hs']
        at hpf ⊢
      have h2 := mainLoopResult_pausedFlag_reqStatus env req fuel _ hpf
      rw [h2]
    · rw [Bool.not_eq_true] at hsr
      rw [processNextRequest_ok_fresh env req db0 fuel hge hcfg hsc hfc hne hsr]
        at hpf ⊢
      have h2 := mainLoopResult_pausedFlag_reqStatus env req fuel _ hpf
      rw [h2]
      rfl

/-- Witness for C10: the concrete paused run of the breaker scenario leaves
the stored request status `in_progress`. -/
theorem C10_paused_rejected_witness :
    (processNextRequest scenEnvPause scenReq scenDB3 4).db.reqStatus =
      "in_progress" :=
  (C10_paused_rejected scenEnvPause scenReq scenDB3 scenDB3 4 rfl rfl rfl rfl
    (by decide)).2.2.2.2 (by decide)

/-- Every event of the full post-setup run is either an initial setup event,
a loop event within scope, or one of the fixed closing events. -/
theorem mainLoop_scoped_events (env : Env) (req : Request) (fuel : Nat)
    (st0 : LoopState) (S : List Nat)
    (hq : ∀ q ∈ st0.queue, q.link.id ∈ S) :
    ∀ ev ∈ (mainLoopResult env req fuel st0).events,
      ev ∈ st0.events ∨ EventScope S st0.sheetName ev ∨
      ev = Event.setRequestStatus req.id "failed" ∨
      ev = Event.notifyGeneric "Error processing request: all links failed to process" ∨
      (∃ a b, ev = Event.setRequestCounts req.id a b) ∨
      ev = Event.setRequestStatus req.id "done" ∨
      ev = Event.notifyGeneric "Completed" := by
  intro ev hmem
  obtain ⟨tail, htail, hscope⟩ := runQueue_events env req S st0.sheetName fuel st0 hq rfl
  rcases mainLoopResult_events_cases env req fuel st0 with hev | hev | hev <;>
    rw [hev, htail] at hmem
  · rcases List.mem_append.mp hmem with h | h
    · exact Or.inl h
    · exact Or.inr (Or.inl (hscope _ h))
  · rcases List.mem_append.mp hmem with h | h
    · rcases List.mem_append.mp h with h2 | h2
      · exact Or.inl h2
      · exact Or.inr (Or.inl (hscope _ h2))
    · rcases List.mem_cons.mp h with h2 | h
      · exact Or.inr (Or.inr (Or.inl h2))
      · rcases List.mem_cons.mp h with h2 | h
        · exact Or.inr (Or.inr (Or.inr (Or.inl h2)))
        · simp at h
  · rcases List.mem_append.mp hmem with h | h
    · rcases List.mem_append.mp h with h2 | h2
      · exact Or.inl h2
      · exact Or.inr (Or.inl (hscope _ h2))
    · rcases List.mem_cons.mp h with h2 | h
      · exact Or.inr (Or.inr (Or.inr (Or.inr (Or.inl ⟨_, _, h2⟩))))
      · rcases List.mem_cons.mp h with h2 | h
        · exact Or.inr (Or.inr (Or.inr (Or.inr (Or.inr (Or.inl h2)))))
        · rcases List.mem_cons.mp h with h2 | h
          · exact Or.inr (Or.inr (Or.inr (Or.inr (Or.inr (Or.inr h2)))))
          · simp at h

/-- Dedup bookkeeping of the full post-setup run, relative to the hydrated
map `base` and stored rows `rows0` the loop started from. -/
theorem mainLoop_dedup (env : Env) (req : Request) (fuel : Nat)
    (st0 : LoopState) (base rows0 : List (String × Nat))
    (hseen : st0.seen = base) (hrows0 : st0.db.listingRows = rows0)
    (hae : st0.allEnriched = []) (hau : st0.allUnfiltered = [])
    (hbase : (base.map Prod.fst).Nodup) :
    (seenURLs (mainLoopResult env req fuel st0).seen).Nodup ∧
    (∃ newRows, (mainLoopResult env req fuel st0).db.listingRows =
        rows0 ++ newRows ∧
      (newRows.map Prod.fst).Nodup ∧
      ∀ p ∈ newRows, seenLookup base p.1 = none) ∧
    (∀ l, l ∈ (mainLoopResult env req fuel st0).allEnriched ++
           (mainLoopResult env req fuel st0).allUnfiltered →
      seenLookup base l.url = none) := by
  have hF0 : DedupFresh base rows0 st0 :=
    ⟨⟨[], by rw [hseen, List.append_nil]⟩,
     ⟨[], by rw [hrows0, List.append_nil], fun p hp => absurd hp (List.not_mem_nil p)⟩,
     by rw [hae, hau]; intro l hl; simp at hl⟩
  have hN0 : DedupNodup rows0 st0 :=
    ⟨by show (st0.seen.map Prod.fst).Nodup; rw [hseen]; exact hbase,
     ⟨[], by rw [hrows0, List.append_nil], by simp⟩⟩
  have hd := runQueue_dedup env req base rows0 fuel st0 hF0
  have hF := hd.1
  have hN := hd.2 hN0
  refine ⟨?_, ?_, ?_⟩
  · rcases mainLoopResult_listings_cases env req fuel st0 with ⟨-, -, hseenR⟩ | ⟨-, -, hseenR⟩
    · rw [hseenR]
      exact hN.1
    · rw [hseenR]
      simp [seenURLs]
  · rw [mainLoopResult_listingRows]
    obtain ⟨nF, hnF, hfresh⟩ := hF.2.1
    obtain ⟨nN, hnN, hnodup⟩ := hN.2
    have heq : rows0 ++ nF = rows0 ++ nN := by rw [← hnF, ← hnN]
    have hEq := List.append_cancel_left heq
    refine ⟨nF, hnF, by rw [hEq]; exact hnodup, fun p hp => (hfresh p hp).2⟩
  · rcases mainLoopResult_listings_cases env req fuel st0 with ⟨he, hu, -⟩ | ⟨he, hu, -⟩
    · intro l hl
      rw [he, hu] at hl
      exact hF.2.2 l hl
    · intro l hl
      rw [he, hu] at hl
      simp at hl

/-- Emission freshness of the full post-setup run: nothing attributed in
`base` is emitted. -/
theorem mainLoop_fresh (env : Env) (req : Request) (fuel : Nat)
    (st0 : LoopState) (base rows0 : List (String × Nat))
    (hseen : st0.seen = base) (hrows0 : st0.db.listingRows = rows0)
    (hae : st0.allEnriched = []) (hau : st0.allUnfiltered = []) :
    ∀ l, l ∈ (mainLoopResult env req fuel st0).allEnriched ++
           (mainLoopResult env req fuel st0).allUnfiltered →
      seenLookup base l.url = none := by
  have hF0 : DedupFresh base rows0 st0 :=
    ⟨⟨[], by rw [hseen, List.append_nil]⟩,
     ⟨[], by rw [hrows0, List.append_nil], fun p hp => absurd hp (List.not_mem_nil p)⟩,
     by rw [hae, hau]; intro l hl; simp at hl⟩
  have hF := (runQueue_dedup env req base rows0 fuel st0 hF0).1
  rcases mainLoopResult_listings_cases env req fuel st0 with ⟨he, hu, -⟩ | ⟨he, hu, -⟩
  · intro l hl
    rw [he, hu] at hl
    exact hF.2.2 l hl
  · intro l hl
    rw [he, hu] at hl
    simp at hl

/-- **C4.** On a resumed request with a stored sheet name and a healthy
setup: the stored sheet is reused (no `createSheet` is ever emitted and every
sheet append names the stored sheet); the rebuilt queue holds exactly links
not yet `done` (so `done` links are never re-processed: no stored-row write
ever targets them); and listings already attributed via the hydrated dedup
map are never emitted again. -/
theorem C4_resume_idempotent (env : Env) (req : Request) (db0 : DBState)
    (fuel : Nat)
    (hsheet : sheetNameReusable req = true)
    (hnd : (db0.links.map (fun l => l.id)).Nodup)
    (hne : db0.links ≠ [])
    (hge : env.getLinksError = none) (hcfg : env.configError = none)
    (hfc : env.fetcherCreateError = none) :
    (∀ q ∈ initialQueue db0.links, q.link ∈ db0.links ∧ q.link.status ≠ "done") ∧
    (∀ nm, Event.createSheet nm ∉ (processNextRequest env req db0 fuel).events) ∧
    (∀ sh rows, Event.appendSheet sh rows ∈
        (processNextRequest env req db0 fuel).events →
      req.sheetName = some sh) ∧
    (∀ l ∈ db0.links, l.status = "done" →
      ∀ ev ∈ (processNextRequest env req db0 fuel).events,
        eventLinkId ev ≠ some l.id) ∧
    (∀ l, l ∈ (processNextRequest env req db0 fuel).allEnriched ++
            (processNextRequest env req db0 fuel).allUnfiltered →
      seenLookup (hydrateSeen db0.links db0.listingRows) l.url = none) := by
  obtain ⟨s, hs, hs'⟩ := sheetNameReusable_some hsheet
  rw [processNextRequest_ok_sheet env req db0 fuel s hge hcfg hfc hne hs hs']
  have huniq : ∀ a ∈ db0.links, ∀ b ∈ db0.links, a.id = b.id → a = b := by
    intro a ha b hb hab
    have h1 : getSearchLinkByID db0 b.id = some a := getSearchLinkByID_unique hnd ha hab
    have h2 : getSearchLinkByID db0 b.id = some b := getSearchLinkByID_unique hnd hb rfl
    rw [h1] at h2
    exact Option.some.inj h2
  have hsplit := mainLoop_scoped_events env req fuel
    { db := { db0 with reqStatus := "in_progress" },
      queue := initialQueue db0.links,
      seen := hydrateSeen db0.links db0.listingRows,
      events := [Event.setRequestStatus req.id "in_progress",
                 Event.notifyGeneric "Processing request"],
      linksSuccessful := doneLinksCount db0.links, linksFailed := 0,
      consecutiveFailures := 0, allEnriched := [], allUnfiltered := [],
      totalPagesFetched := 0,
      totalListingsBeforeFilter := doneListingsTotal db0.links,
      stepIdx := 0, sheetName := s }
    ((initialQueue db0.links).map (fun q => q.link.id))
    (fun q hq => List.mem_map_of_mem _ hq)
  refine ⟨?_, ?_, ?_, ?_, ?_⟩
  · intro q hq
    have h := initialQueue_mem hq
    exact ⟨h.1, h.2.1⟩
  · intro nm hmem
    rcases hsplit _ hmem with h | h | h | h | h | h | h
    · rcases List.mem_cons.mp h with h2 | h
      · exact Event.noConfusion h2
      · rcases List.mem_cons.mp h with h2 | h
        · exact Event.noConfusion h2
        · simp at h
    · exact h
    · exact Event.noConfusion h
    · exact Event.noConfusion h
    · obtain ⟨a, b, h⟩ := h
      exact Event.noConfusion h
    · exact Event.noConfusion h
    · exact Event.noConfusion h
  · intro sh rows hmem
    rcases hsplit _ hmem with h | h | h | h | h | h | h
    · rcases List.mem_cons.mp h with h2 | h
      · exact Event.noConfusion h2
      · rcases List.mem_cons.mp h with h2 | h
        · exact Event.noConfusion h2
        · simp at h
    · have h' : sh = s := h
      rw [hs, h']
    · exact Event.noConfusion h
    · exact Event.noConfusion h
    · obtain ⟨a, b, h⟩ := h
      exact Event.noConfusion h
    · exact Event.noConfusion h
    · exact Event.noConfusion h
  · intro l hl hdone ev hmem hid
    rcases hsplit _ hmem with h | h | h | h | h | h | h
    · rcases List.mem_cons.mp h with h2 | h
      · subst h2
        exact Option.noConfusion hid
      · rcases List.mem_cons.mp h with h2 | h
        · subst h2
          exact Option.noConfusion hid
        · simp at h
    · cases ev <;> try exact Option.noConfusion hid
      case setLinkStatus i stx erx =>
        have hiS : i ∈ (initialQueue db0.links).map (fun q => q.link.id) := h
        have hidq : i = l.id := Option.some.inj hid
        obtain ⟨q, hq', hq'id⟩ := List.mem_map.mp hiS
        have hqm := initialQueue_mem hq'
        have hql : q.link = l := huniq q.link hqm.1 l hl (by rw [hq'id, hidq])
        rw [hql] at hqm
        exact hqm.2.1 hdone
      case incrementRetry i =>
        have hiS : i ∈ (initialQueue db0.links).map (fun q => q.link.id) := h
        have hidq : i = l.id := Option.some.inj hid
        obtain ⟨q, hq', hq'id⟩ := List.mem_map.mp hiS
        have hqm := initialQueue_mem hq'
        have hql : q.link = l := huniq q.link hqm.1 l hl (by rw [hq'id, hidq])
        rw [hql] at hqm
        exact hqm.2.1 hdone
      case setLinkListingsCount i c =>
        have hiS : i ∈ (initialQueue db0.links).map (fun q => q.link.id) := h
        have hidq : i = l.id := Option.some.inj hid
        obtain ⟨q, hq', hq'id⟩ := List.mem_map.mp hiS
        have hqm := initialQueue_mem hq'
        have hql : q.link = l := huniq q.link hqm.1 l hl (by rw [hq'id, hidq])
        rw [hql] at hqm
        exact hqm.2.1 hdone
    · subst h
      exact Option.noConfusion hid
    · subst h
      exact Option.noConfusion hid
    · obtain ⟨a, b, h⟩ := h
      subst h
      exact Option.noConfusion hid
    · subst h
      exact Option.noConfusion hid
    · subst h
      exact Option.noConfusion hid
  · exact mainLoop_fresh env req fuel _
      (hydrateSeen db0.links db0.listingRows) db0.listingRows rfl rfl rfl rfl

/-- Witness for C4: the concrete resumed run reuses `Sheet1` (no sheet is
created) and its rebuilt queue contains pending link 2, drawn from the
stored links. -/
theorem C4_resume_idempotent_witness :
    Event.createSheet "Request_1" ∉
      (processNextRequest scenEnvResume scenReqSheet scenDBResume 4).events ∧
    ({ link := scenLink 2 2 "pending" 0, retryCount := 0 } : QueueItem).link ∈
      scenDBResume.links := by
  have h := C4_resume_idempotent scenEnvResume scenReqSheet scenDBResume 4
    rfl (by decide) (by decide) rfl rfl rfl
  refine ⟨h.2.1 "Request_1", ?_⟩
  exact (h.1 _ (by decide)).1

theorem seenLookup_append_some {s : List (String × Nat)} (t : List (String × Nat))
    {u : String} {n : Nat} (h : seenLookup s u = some n) :
    seenLookup (s ++ t) u = some n := by
  unfold seenLookup at h ⊢
  rw [List.find?_append]
  cases hf : s.find? (fun p => p.1 == u) with
  | none =>
    rw [hf] at h
    simp at h
  | some p =>
    rw [hf] at h
    exact h

theorem seenLookup_of_mem_const {u : String} {n : Nat} :
    ∀ rows : List (String × Nat), u ∈ rows.map Prod.fst →
      (∀ p ∈ rows, p.2 = n) → seenLookup rows u = some n := by
  intro rows
  induction rows with
  | nil =>
    intro h _
    simp at h
  | cons q rest ih =>
    intro hmem hconst
    unfold seenLookup
    by_cases hq : (q.1 == u) = true
    · rw [@List.find?_cons_of_pos _ (fun p => p.1 == u) q rest hq]
      simp [hconst q (List.mem_cons_self q rest)]
    · rw [@List.find?_cons_of_neg _ (fun p => p.1 == u) q rest hq]
      have hmem' : u ∈ rest.map Prod.fst := by
        rcases List.mem_cons.mp hmem with h | h
        · exact absurd (by simp [h]) hq
        · exact h
      exact ih hmem' (fun p hp => hconst p (List.mem_cons_of_mem _ hp))

theorem seenLookup_append_left_none {s rows : List (String × Nat)} {u : String}
    (h0 : seenLookup s u = none) :
    seenLookup (s ++ rows) u = seenLookup rows u := by
  unfold seenLookup at h0 ⊢
  rw [List.find?_append]
  rw [Option.map_eq_none'] at h0
  rw [h0]
  rfl

/-- One `processSearchLink` run only extends the dedup map (owners already
recorded persist), and every listing it returns — kept-and-enriched or
unfiltered — is owned in the returned map by this link. -/
theorem processSearchLink_owned (k : Listing → Bool)
    (fp : Except String (List (Except String (List Listing))))
    (o : Nat → Listing → Option DetailData) (arr : List Nat) (ln : Nat)
    (s0 : List (String × Nat)) :
    (∀ u n, seenLookup s0 u = some n →
      seenLookup (processSearchLink k fp o arr ln s0).seen u = some n) ∧
    (∀ l ∈ (processSearchLink k fp o arr ln s0).enriched ++
           (processSearchLink k fp o arr ln s0).unfiltered,
      seenLookup (processSearchLink k fp o arr ln s0).seen l.url = some ln ∧
      l.linkNumber = ln) := by
  obtain ⟨unfPairs, h1, h2, h3, h4, h5, h6⟩ := processSearchLink_spec k fp o arr ln s0
  constructor
  · intro u n hu
    rw [h1, List.append_assoc]
    exact seenLookup_append_some _ hu
  · intro l hl
    rw [h1, List.append_assoc]
    rcases List.mem_append.mp hl with hl | hl
    · obtain ⟨hmem, hln⟩ := h5 l hl
      refine ⟨?_, hln⟩
      have h0 : seenLookup s0 l.url = none := by
        obtain ⟨p, hp, hpu⟩ := List.mem_map.mp hmem
        rw [← hpu]
        exact (h3 p (List.mem_append_left _ hp)).1
      rw [seenLookup_append_left_none h0]
      apply seenLookup_of_mem_const
      · rw [List.map_append]
        exact List.mem_append_left _ hmem
      · intro p hp
        exact (h3 p hp).2
    · refine ⟨?_, h6 l hl⟩
      have hmem : l.url ∈ unfPairs.map Prod.fst := by
        rw [← h4, listingURLs]
        exact List.mem_map_of_mem _ hl
      have h0 : seenLookup s0 l.url = none := by
        obtain ⟨p, hp, hpu⟩ := List.mem_map.mp hmem
        rw [← hpu]
        exact (h3 p (List.mem_append_right _ hp)).1
      rw [seenLookup_append_left_none h0]
      apply seenLookup_of_mem_const
      · rw [List.map_append]
        exact List.mem_append_right _ hmem
      · intro p hp
        exact (h3 p hp).2

/-- One loop iteration preserves emission ownership. -/
theorem runStep_owned (env : Env) (req : Request) (item : QueueItem)
    (st : LoopState)
    (h : ∀ l ∈ st.allEnriched ++ st.allUnfiltered,
      seenLookup st.seen l.url = some l.linkNumber) :
    ∀ l ∈ (stOf (runStep env req item st)).allEnriched ++
          (stOf (runStep env req item st)).allUnfiltered,
      seenLookup (stOf (runStep env req item st)).seen l.url =
        some l.linkNumber := by
  rw [runStep_eq]
  obtain ⟨hpers, hnew⟩ := processSearchLink_owned env.keep (env.fetchParse st.stepIdx)
    (env.detailOracle st.stepIdx) (env.arrival st.stepIdx) item.link.linkNumber st.seen
  obtain ⟨hs, -, hor⟩ := runStepWith_dedup_fields req item st
    (processSearchLink env.keep (env.fetchParse st.stepIdx)
      (env.detailOracle st.stepIdx) (env.arrival st.stepIdx) item.link.linkNumber st.seen)
  intro l hl
  rw [hs]
  rcases hor with ⟨he, hu⟩ | ⟨he, hu⟩
  · rw [he, hu] at hl
    exact hpers _ _ (h l hl)
  · rw [he, hu] at hl
    rcases List.mem_append.mp hl with hl1 | hl1
    · rcases List.mem_append.mp hl1 with hl2 | hl2
      · exact hpers _ _ (h l (List.mem_append_left _ hl2))
      · have h2 := hnew l (List.mem_append_left _ hl2)
        rw [h2.2]
        exact h2.1
    · rcases List.mem_append.mp hl1 with hl2 | hl2
      · exact hpers _ _ (h l (List.mem_append_right _ hl2))
      · have h2 := hnew l (List.mem_append_right _ hl2)
        rw [h2.2]
        exact h2.1

/-- Draining the queue preserves emission ownership. -/
theorem runQueue_owned (env : Env) (req : Request) :
    ∀ (fuel : Nat) (st : LoopState),
      (∀ l ∈ st.allEnriched ++ st.allUnfiltered,
        seenLookup st.seen l.url = some l.linkNumber) →
      ∀ l ∈ (runQueue env req fuel st).state.allEnriched ++
            (runQueue env req fuel st).state.allUnfiltered,
        seenLookup (runQueue env req fuel st).state.seen l.url =
          some l.linkNumber := by
  intro fuel
  induction fuel with
  | zero =>
    intro st h
    exact h
  | succ n ih =>
    intro st h
    cases hq : st.queue with
    | nil =>
      rw [runQueue_succ_nil env req n st hq]
      exact h
    | cons item rest =>
      rw [runQueue_succ_cons env req n st item rest hq]
      have hstep := runStep_owned env req item { st with queue := rest } h
      rcases hstep2 : runStep env req item { st with queue := rest } with s | s
      · rw [hstep2] at hstep
        exact hstep
      · rw [hstep2] at hstep
        exact ih s hstep

/-- Emission ownership of the full post-setup run. -/
theorem mainLoop_owned (env : Env) (req : Request) (fuel : Nat) (st0 : LoopState)
    (hae : st0.allEnriched = []) (hau : st0.allUnfiltered = []) :
    ∀ l ∈ (mainLoopResult env req fuel st0).allEnriched ++
          (mainLoopResult env req fuel st0).allUnfiltered,
      seenLookup (mainLoopResult env req fuel st0).seen l.url =
        some l.linkNumber := by
  have h0 : ∀ l ∈ st0.allEnriched ++ st0.allUnfiltered,
      seenLookup st0.seen l.url = some l.linkNumber := by
    intro l hl
    rw [hae, hau] at hl
    simp at hl
  have hfin := runQueue_owned env req fuel st0 h0
  rcases mainLoopResult_listings_cases env req fuel st0 with ⟨he, hu, hsn⟩ | ⟨he, hu, hsn⟩
  · intro l hl
    rw [he, hu] at hl
    rw [hsn]
    exact hfin l hl
  · intro l hl
    rw [he, hu] at hl
    simp at hl

/-- **C5** (amended). Within a single run no URL appears in more than one
link's kept or unfiltered set: every emitted listing — kept-and-enriched or
unfiltered — is owned in the dedup map by the link it is attributed to, so
two emissions with the same URL are credited to the same link; the map owns
each URL at most once, the rows persisted by the run are pairwise-distinct
URLs each fresh with respect to the hydrated map (the first link to observe
a URL claims it; later occurrences are dropped), and nothing whose URL the
hydrated map already owns is emitted.  The hydrated map is rebuilt only from
the PERSISTED listings of `done` links — and only kept (filter-passing)
listings are persisted — so exclusivity does NOT extend to unfiltered
listings across a pause/resume boundary. -/
theorem C5_dedup_single_run (env : Env) (req : Request) (db0 : DBState)
    (fuel : Nat)
    (hge : env.getLinksError = none) (hcfg : env.configError = none)
    (hsc : env.sheetCreateError = none) (hfc : env.fetcherCreateError = none)
    (hne : db0.links ≠ [])
    (hrows : (db0.listingRows.map Prod.fst).Nodup) :
    (seenURLs (processNextRequest env req db0 fuel).seen).Nodup ∧
    (∃ newRows, (processNextRequest env req db0 fuel).db.listingRows =
        db0.listingRows ++ newRows ∧
      (newRows.map Prod.fst).Nodup ∧
      ∀ p ∈ newRows,
        seenLookup (hydrateSeen db0.links db0.listingRows) p.1 = none) ∧
    (∀ l, l ∈ (processNextRequest env req db0 fuel).allEnriched ++
            (processNextRequest env req db0 fuel).allUnfiltered →
      seenLookup (hydrateSeen db0.links db0.listingRows) l.url = none) ∧
    (∀ l, l ∈ (processNextRequest env req db0 fuel).allEnriched ++
            (processNextRequest env req db0 fuel).allUnfiltered →
      seenLookup (processNextRequest env req db0 fuel).seen l.url =
        some l.linkNumber) ∧
    (∀ l1, l1 ∈ (processNextRequest env req db0 fuel).allEnriched ++
            (processNextRequest env req db0 fuel).allUnfiltered →
      ∀ l2, l2 ∈ (processNextRequest env req db0 fuel).allEnriched ++
            (processNextRequest env req db0 fuel).allUnfiltered →
        l1.url = l2.url → l1.linkNumber = l2.linkNumber) := by
  have hbase := hydrateSeen_nodup db0.links db0.listingRows hrows
  by_cases hsr : sheetNameReusable req = true
  · obtain ⟨s, hs, hs'⟩ := sheetNameReusable_some hsr
    rw [processNextRequest_ok_sheet env req db0 fuel s hge hcfg hfc hne hs hs']
    refine ⟨(mainLoop_dedup env req fuel _ (hydrateSeen db0.links db0.listingRows)
        db0.listingRows rfl rfl rfl rfl hbase).1,
      (mainLoop_dedup env req fuel _ (hydrateSeen db0.links db0.listingRows)
        db0.listingRows rfl rfl rfl rfl hbase).2.1,
      (mainLoop_dedup env req fuel _ (hydrateSeen db0.links db0.listingRows)
        db0.listingRows rfl rfl rfl rfl hbase).2.2,
      mainLoop_owned env req fuel _ rfl rfl, ?_⟩
    intro l1 h1 l2 h2 hurl
    have o1 := mainLoop_owned env req fuel _ rfl rfl l1 h1
    have o2 := mainLoop_owned env req fuel _ rfl rfl l2 h2
    rw [hurl] at o1
    rw [o1] at o2
    exact Option.some.inj o2
  · rw [Bool.not_eq_true] at hsr
    rw [processNextRequest_ok_fresh env req db0 fuel hge hcfg hsc hfc hne hsr]
    refine ⟨(mainLoop_dedup env req fuel _ (hydrateSeen db0.links db0.listingRows)
        db0.listingRows rfl rfl rfl rfl hbase).1,
      (mainLoop_dedup env req fuel _ (hydrateSeen db0.links db0.listingRows)
        db0.listingRows rfl rfl rfl rfl hbase).2.1,
      (mainLoop_dedup env req fuel _ (hydrateSeen db0.links db0.listingRows)
        db0.listingRows rfl rfl rfl rfl hbase).2.2,
      mainLoop_owned env req fuel _ rfl rfl, ?_⟩
    intro l1 h1 l2 h2 hurl
    have o1 := mainLoop_owned env req fuel _ rfl rfl l1 h1
    have o2 := mainLoop_owned env req fuel _ rfl rfl l2 h2
    rw [hurl] at o1
    rw [o1] at o2
    exact Option.some.inj o2

/-- Witness for C5: in the single paused run of the two-run scenario the
dedup map is duplicate-free, and the emitted unfiltered listing with URL `U`
is owned in the map by link 1, the link it is attributed to. -/
theorem C5_dedup_single_run_witness :
    (seenURLs (processNextRequest scenEnvRun1 scenReq scenDB3 4).seen).Nodup ∧
    seenLookup (processNextRequest scenEnvRun1 scenReq scenDB3 4).seen
      ({ scenListingNo with pageNumber := 1, linkNumber := 1 } : Listing).url =
      some 1 := by
  have h := C5_dedup_single_run scenEnvRun1 scenReq scenDB3 4 rfl rfl rfl rfl
    (by decide) (by decide)
  refine ⟨h.1, ?_⟩
  exact h.2.2.2.1 { scenListingNo with pageNumber := 1, linkNumber := 1 }
    (by decide)

/-- **C5 — counterexample.** Across a pause/resume boundary the claimed
exclusivity fails: in run 1 URL `U` is first observed by link 1 and credited
to link 1's unfiltered set; the run pauses, and because unfiltered listings
are never persisted, the resumed run's rehydrated dedup map lacks `U`, so
link 2 re-observes `U` and keeps it — the same URL ends up in two links'
sets, now owned by link 2. -/
theorem C5_dedup_cex :
    (processNextRequest scenEnvRun1 scenReq scenDB3 4).pausedFlag = true ∧
    "U" ∈ listingURLs (processNextRequest scenEnvRun1 scenReq scenDB3 4).allUnfiltered ∧
    seenLookup (processNextRequest scenEnvRun1 scenReq scenDB3 4).seen "U" = some 1 ∧
    "U" ∈ listingURLs (processNextRequest scenEnvRun2
        (reloadRequest scenReq (processNextRequest scenEnvRun1 scenReq scenDB3 4).db)
        (resumeRequest (processNextRequest scenEnvRun1 scenReq scenDB3 4).db)
        4).allEnriched ∧
    seenLookup (processNextRequest scenEnvRun2
        (reloadRequest scenReq (processNextRequest scenEnvRun1 scenReq scenDB3 4).db)
        (resumeRequest (processNextRequest scenEnvRun1 scenReq scenDB3 4).db)
        4).seen "U" = some 2 := by
  decide

end AirHelper
